import Mathlib

/-!
# Future mission planning screen: navigator matching and cyclic mission search

A shallow embedding of `src/game/future.cpp`: the mission navigator
(`MissionNavigator`), the match test `NavMatch`, the two cyclic searches
`UpSearchRout` and `DownSearchRout`, `PianoKey`, `NavReset` and the event
dispatch of `Future`.

Machine integers are modelled by `Int`.  The one increment that can leave the
range of `int`, `nav.duration.value++` in the duration toggle, is modelled with
the fault `overflow`; every other value that occurs lies far inside the range.
The two `while (! found)` loops are modelled with a fuel argument that counts
loop iterations.  A read `missionData[i]` outside the vector is undefined in the
source and is modelled by the fault `badIndex`; a failing `assert` is modelled
by the fault `assertFailed`.
-/

namespace RIS

/-! ## Data model -/

/-- One button of the navigator: `struct NavButton { int value; bool lock; }`. -/
structure NavButton where
  value : Int
  lock : Bool
  deriving DecidableEq, Repr

/-- The navigator: `NavButton duration, docking, EVA, LM, joint`. -/
structure MissionNavigator where
  duration : NavButton
  docking : NavButton
  EVA : NavButton
  LM : NavButton
  joint : NavButton
  deriving DecidableEq, Repr

/-- The mission template `struct mStr`.  The structure is declared outside
`future.cpp`; these are the members that `future.cpp` and the record
description use (the text members play no part here). -/
structure mStr where
  Index : Int
  Days : Int
  Dur : Int
  Doc : Int
  EVA : Int
  LM : Int
  Jt : Int
  mCrew : Int
  deriving DecidableEq, Repr

/-- The file-level state read by the searches: the vector `missionData`, the
three availability flags, and the three mission codes `Mission_MarsFlyby`,
`Mission_JupiterFlyby`, `Mission_SaturnFlyby` (enumeration constants declared
outside `future.cpp`, hence parameters here). -/
structure Globals where
  missionData : List mStr
  MarsFlag : Bool
  JupiterFlag : Bool
  SaturnFlag : Bool
  Mission_MarsFlyby : Int
  Mission_JupiterFlyby : Int
  Mission_SaturnFlyby : Int
  deriving Repr

/-- Ways in which a run of the model yields no value. -/
inductive Fault where
  | outOfFuel
  | badIndex (i : Int)
  | assertFailed
  | overflow
  deriving DecidableEq, Repr

/-- The read `missionData[i]`. -/
def missionAt (g : Globals) (i : Int) : Except Fault mStr :=
  if 0 ≤ i then
    match g.missionData[i.toNat]? with
    | some m => .ok m
    | none => .error (.badIndex i)
  else .error (.badIndex i)

/-! ## Availability predicates -/

/-- The function `MarsInRange(year, season)`: is Mars in range for a launch at
the given time. -/
def MarsInRange (year season : Nat) : Bool :=
  (year == 60 && season == 0) || (year == 62 && season == 0) ||
  (year == 64 && season == 0) || (year == 66 && season == 0) ||
  (year == 69 && season == 1) || (year == 71 && season == 1) ||
  (year == 73 && season == 1)

/-- The function `JupiterInRange(year, season)`; the season is not used. -/
def JupiterInRange (year _season : Nat) : Bool :=
  year == 60 || year == 64 || year == 68 || year == 72 || year == 73 || year == 77

/-- The function `SaturnInRange(year, season)`; the season is not used. -/
def SaturnInRange (year _season : Nat) : Bool :=
  year == 61 || year == 66 || year == 72

/-! ## Navigator -/

/-- The function `NavMatch(nav, mission)`: the conjunction of its five tests.
`mission.Dur` is an integer used as a truth value. -/
def NavMatch (nav : MissionNavigator) (mission : mStr) : Bool :=
  (!nav.docking.lock || nav.docking.value == mission.Doc) &&
  (!nav.EVA.lock || nav.EVA.value == mission.EVA) &&
  (!nav.LM.lock || nav.LM.value == mission.LM) &&
  (!nav.joint.lock || nav.joint.value == mission.Jt) &&
  (!nav.duration.lock || nav.duration.value == mission.Days ||
    (mission.Dur != 0 && decide (nav.duration.value ≥ mission.Days)))

/-- The function `NavReset(nav)`: the ten assignments. -/
def NavReset (_nav : MissionNavigator) : MissionNavigator :=
  { duration := { value := 0, lock := false }
    docking := { value := 0, lock := false }
    EVA := { value := 0, lock := false }
    LM := { value := 0, lock := false }
    joint := { value := 0, lock := false } }

/-- First block of `PianoKey`:
`if (! nav.docking.lock) { nav.docking.value = missionData[X].Doc; }`. -/
def PianoKey.setDocking (g : Globals) (X : Int) (nav : MissionNavigator) :
    Except Fault MissionNavigator :=
  if !nav.docking.lock then
    match missionAt g X with
    | .ok m => .ok { nav with docking := { nav.docking with value := m.Doc } }
    | .error e => .error e
  else .ok nav

/-- Second block of `PianoKey`:
`if (! nav.EVA.lock) { nav.EVA.value = missionData[X].EVA; }`. -/
def PianoKey.setEVA (g : Globals) (X : Int) (nav : MissionNavigator) :
    Except Fault MissionNavigator :=
  if !nav.EVA.lock then
    match missionAt g X with
    | .ok m => .ok { nav with EVA := { nav.EVA with value := m.EVA } }
    | .error e => .error e
  else .ok nav

/-- Third block of `PianoKey`:
`if (! nav.LM.lock) { nav.LM.value = missionData[X].LM; }`. -/
def PianoKey.setLM (g : Globals) (X : Int) (nav : MissionNavigator) :
    Except Fault MissionNavigator :=
  if !nav.LM.lock then
    match missionAt g X with
    | .ok m => .ok { nav with LM := { nav.LM with value := m.LM } }
    | .error e => .error e
  else .ok nav

/-- Fourth block of `PianoKey`:
`if (! nav.joint.lock) { nav.joint.value = missionData[X].Jt; }`. -/
def PianoKey.setJoint (g : Globals) (X : Int) (nav : MissionNavigator) :
    Except Fault MissionNavigator :=
  if !nav.joint.lock then
    match missionAt g X with
    | .ok m => .ok { nav with joint := { nav.joint with value := m.Jt } }
    | .error e => .error e
  else .ok nav

/-- Fifth block of `PianoKey`:
`if (! nav.duration.lock) { nav.duration.value = missionData[X].Days;
assert(nav.duration.value >= 0); }`.  The program stops when the assertion
fails. -/
def PianoKey.setDuration (g : Globals) (X : Int) (nav : MissionNavigator) :
    Except Fault MissionNavigator :=
  if !nav.duration.lock then
    match missionAt g X with
    | .ok m =>
      if m.Days ≥ 0 then .ok { nav with duration := { nav.duration with value := m.Days } }
      else .error .assertFailed
    | .error e => .error e
  else .ok nav

/-- The function `PianoKey(X, nav)`: its five blocks in order; every unlocked button takes
the attribute of `missionData[X]`, and the duration block asserts that the
value it took is not negative.  The drawing calls are left out. -/
def PianoKey (g : Globals) (X : Int) (nav : MissionNavigator) :
    Except Fault MissionNavigator :=
  (PianoKey.setDocking g X nav).bind fun nav =>
  (PianoKey.setEVA g X nav).bind fun nav =>
  (PianoKey.setLM g X nav).bind fun nav =>
  (PianoKey.setJoint g X nav).bind fun nav =>
  PianoKey.setDuration g X nav

/-! ## Cyclic search -/

/-- The guard of the `if` at the top of both search loops: `num` is a flyby
code whose availability flag is false. -/
def flybyGated (g : Globals) (num : Int) : Bool :=
  (num == g.Mission_MarsFlyby && g.MarsFlag == false) ||
  (num == g.Mission_JupiterFlyby && g.JupiterFlag == false) ||
  (num == g.Mission_SaturnFlyby && g.SaturnFlag == false)

/-- The `if ... else` at the top of both search loops: the new value of
`found` for the candidate `num`.  The catalog is read only when the candidate
is not gated. -/
def candidate (g : Globals) (nav : MissionNavigator) (num : Int) : Except Fault Bool :=
  if flybyGated g num then .ok false
  else
    match missionAt g num with
    | .ok m => .ok (NavMatch nav m)
    | .error e => .error e

/-- The `while (! found)` loop of `UpSearchRout`, entered with `found == false`.
The result pairs the returned value with the list of candidates examined, in
order (one per loop iteration); the list is bookkeeping of the model. -/
def UpSearchLoop (g : Globals) (plr : Int) (nav : MissionNavigator) (orig : Int) :
    Nat → Int → Except Fault (Int × List Int)
  | 0, _ => .error .outOfFuel
  | fuel + 1, num =>
    match candidate g nav num with
    | .error e => .error e
    | .ok found =>
      if num = orig then .ok (0, [num])
      else if found = false then
        match UpSearchLoop g plr nav orig fuel (if num + 1 > 56 + plr then 0 else num + 1) with
        | .error e => .error e
        | .ok (r, tr) => .ok (r, num :: tr)
      else .ok (num, [num])

/-- The function `UpSearchRout(num, plr, navigator)`: the first increment of
`num`, which wraps to 0 with `>=`, then the loop.  `fuel` bounds the number of
loop iterations. -/
def UpSearchRout (fuel : Nat) (g : Globals) (num plr : Int) (navigator : MissionNavigator) :
    Except Fault (Int × List Int) :=
  let orig := num
  let num := if num + 1 ≥ 56 + plr then 0 else num + 1
  UpSearchLoop g plr navigator orig fuel num

/-- The `while (! found)` loop of `DownSearchRout`, entered with
`found == false`; the result is as for `UpSearchLoop`. -/
def DownSearchLoop (g : Globals) (plr : Int) (nav : MissionNavigator) (orig : Int) :
    Nat → Int → Except Fault (Int × List Int)
  | 0, _ => .error .outOfFuel
  | fuel + 1, num =>
    match candidate g nav num with
    | .error e => .error e
    | .ok found =>
      if num = orig then .ok (0, [num])
      else if !found then
        match DownSearchLoop g plr nav orig fuel (if num - 1 < 0 then 56 + plr else num - 1) with
        | .error e => .error e
        | .ok (r, tr) => .ok (r, num :: tr)
      else .ok (num, [num])

/-- The function `DownSearchRout(num, plr, navigator)`: the first decrement of
`num`, which wraps to `56 + plr`, then the loop.  `fuel` bounds the number of
loop iterations. -/
def DownSearchRout (fuel : Nat) (g : Globals) (num plr : Int) (navigator : MissionNavigator) :
    Except Fault (Int × List Int) :=
  let orig := num
  let num := if num - 1 < 0 then 56 + plr else num - 1
  DownSearchLoop g plr navigator orig fuel num

/-- A candidate index is accepted when it is not a flyby code whose
availability flag is false and `NavMatch(nav, missionData[i])` is true. -/
def accepted (g : Globals) (nav : MissionNavigator) (i : Int) : Bool :=
  !flybyGated g i &&
    (match missionAt g i with
     | .ok m => NavMatch nav m
     | .error _ => false)

/-! ## Catalog load -/

/-- The two `IOException`s thrown by `SetParameters`. -/
inductive IOException where
  | couldNotOpen
  | errorReadingEntry
  deriving DecidableEq, Repr

/-- The `for (int i = 0; i < 62; i++)` loop of `SetParameters`: `n` iterations
remain, `records` are the full records still unread in the file.  The result
is the vector after the loop and the exception thrown, if any. -/
def SetParametersLoop : Nat → List mStr → List mStr → List mStr × Option IOException
  | 0, _, missionData => (missionData, none)
  | _ + 1, [], _ => ([], some .errorReadingEntry)
  | n + 1, entry :: rest, missionData => SetParametersLoop n rest (missionData ++ [entry])

/-- The function `SetParameters()`.  The file `MISSION.DAT` is `none` when `sOpen` returns
`NULL` and otherwise the sequence of its full records. -/
def SetParameters (file : Option (List mStr)) (missionData : List mStr) :
    List mStr × Option IOException :=
  if !missionData.isEmpty then (missionData, none)
  else
    match file with
    | none => (missionData, some .couldNotOpen)
    | some records => SetParametersLoop 62 records missionData

/-! ## The event loop of `Future` -/

/-- The five navigator buttons. -/
inductive Field where
  | duration
  | docking
  | EVA
  | LM
  | joint
  deriving DecidableEq, Repr

/-- The button of a field. -/
def MissionNavigator.button (nav : MissionNavigator) : Field → NavButton
  | .duration => nav.duration
  | .docking => nav.docking
  | .EVA => nav.EVA
  | .LM => nav.LM
  | .joint => nav.joint

/-- The decoded input of one pass of the input loop of `Future`.  Each event
stands for the input condition (mouse region or key) of one branch of the
`if / else if` chain: the restriction-lock buttons, the parameter toggles, the
reset button and the two scroll arrows.  For a scroll arrow `released` tells
whether the `for (i < 50)` polling loop saw the mouse button up (one search),
and `held` is the number of iterations of the following
`while (mousebuttons == 1 || key == ...)` loop.  The CONTINUE button and the
mission-steps toggle depend on `HardCrewAssign`, `ClrFut` and `Data`, which are
not part of these sources, and have no event here. -/
inductive Event where
  | lockToggle (f : Field)
  | toggle (f : Field)
  | reset
  | scrollUp (released : Bool) (held : Nat)
  | scrollDown (released : Bool) (held : Nat)
  deriving DecidableEq, Repr

/-- The state of one pad session of `Future`: the player, the global
`JointFlag`, the cursor `char misType` and the navigator `nav`. -/
structure Session where
  plr : Int
  JointFlag : Bool
  misType : Int
  nav : MissionNavigator
  deriving DecidableEq, Repr

/-- The local constant `MaxDur` of `Future`. -/
def MaxDur : Int := 6

/-- The largest value of the type `int` (32 bits). -/
def INT_MAX : Int := 2147483647

/-- The data model of the catalog: every template has a duration class `Days`
in `0..6`. -/
def durationClasses (g : Globals) : Bool :=
  g.missionData.all fun m => decide (0 ≤ m.Days) && decide (m.Days ≤ 6)

/-- Conversion of an `int` to the (signed, 8 bit) `char` of `misType`. -/
def toChar (x : Int) : Int := (x + 128) % 256 - 128

/-- The effect of `DrawMission(plr, X, Y, val, pad, bub, nav)` with `bub` 1 or
3 on the navigator: `PianoKey(val, nav)`, followed by the read of
`missionData[val].Days` for the duration text. -/
def DrawMission (g : Globals) (val : Int) (nav : MissionNavigator) :
    Except Fault MissionNavigator :=
  (PianoKey g val nav).bind fun nav =>
  (missionAt g val).bind fun _ => .ok nav

/-- The statement `misType = UpSearchRout(misType, plr, nav);`. -/
def scrollUpPass (fuel : Nat) (g : Globals) (s : Session) : Except Fault Session :=
  match UpSearchRout fuel g s.misType s.plr s.nav with
  | .ok (r, _) => .ok { s with misType := toChar r }
  | .error e => .error e

/-- The statement `misType = DownSearchRout(misType, plr, nav);`. -/
def scrollDownPass (fuel : Nat) (g : Globals) (s : Session) : Except Fault Session :=
  match DownSearchRout fuel g s.misType s.plr s.nav with
  | .ok (r, _) => .ok { s with misType := toChar r }
  | .error e => .error e

/-- The statement `DrawMission(plr, 8, 37, misType, pad, 3, nav);`. -/
def redraw (g : Globals) (s : Session) : Except Fault Session :=
  match DrawMission g s.misType s.nav with
  | .ok nav => .ok { s with nav := nav }
  | .error e => .error e

/-- The `while (mousebuttons == 1 || key == UP_ARROW)` loop, `held` iterations. -/
def scrollUpHeld (fuel : Nat) (g : Globals) : Nat → Session → Except Fault Session
  | 0, s => .ok s
  | n + 1, s =>
    match scrollUpPass fuel g s with
    | .error e => .error e
    | .ok s1 =>
      match redraw g s1 with
      | .error e => .error e
      | .ok s2 => scrollUpHeld fuel g n s2

/-- The `while (mousebuttons == 1 || key == DN_ARROW)` loop, `held` iterations. -/
def scrollDownHeld (fuel : Nat) (g : Globals) : Nat → Session → Except Fault Session
  | 0, s => .ok s
  | n + 1, s =>
    match scrollDownPass fuel g s with
    | .error e => .error e
    | .ok s1 =>
      match redraw g s1 with
      | .error e => .error e
      | .ok s2 => scrollDownHeld fuel g n s2

/-- One pass of the input loop of `Future` for a decoded event: the branch of
the `if / else if` chain that the event selects.  When the guard of that branch
on the navigator fails, no later branch has a matching input condition and the
state is unchanged.  In the duration toggle `nav.duration.value++` at the
largest `int` is undefined in the source and yields the fault `overflow`. -/
def FutureStep (fuel : Nat) (g : Globals) (s : Session) : Event → Except Fault Session
  | .lockToggle .duration =>
    .ok { s with nav := { s.nav with duration := { s.nav.duration with lock := !s.nav.duration.lock } } }
  | .toggle .duration =>
    if s.nav.duration.lock != true then
      if s.nav.duration.value == MaxDur then
        .ok { s with nav := { s.nav with duration := { s.nav.duration with value := 0 } } }
      else if s.nav.duration.value == INT_MAX then .error .overflow
      else
        .ok { s with nav := { s.nav with
                duration := { s.nav.duration with value := s.nav.duration.value + 1 } } }
    else .ok s
  | .reset =>
    let misType := 0
    let nav := NavReset s.nav
    let nav := if s.JointFlag == false then { nav with joint := { value := 0, lock := true } } else nav
    match DrawMission g misType nav with
    | .ok nav => .ok { s with misType := misType, nav := nav }
    | .error e => .error e
  | .lockToggle .docking =>
    .ok { s with nav := { s.nav with docking := { s.nav.docking with lock := !s.nav.docking.lock } } }
  | .toggle .docking =>
    if s.nav.docking.lock == false then
      .ok { s with nav := { s.nav with
              docking := { s.nav.docking with value := if s.nav.docking.value != 0 then 0 else 1 } } }
    else .ok s
  | .lockToggle .EVA =>
    .ok { s with nav := { s.nav with EVA := { s.nav.EVA with lock := !s.nav.EVA.lock } } }
  | .toggle .EVA =>
    if s.nav.EVA.lock == false then
      .ok { s with nav := { s.nav with
              EVA := { s.nav.EVA with value := if s.nav.EVA.value != 0 then 0 else 1 } } }
    else .ok s
  | .lockToggle .LM =>
    .ok { s with nav := { s.nav with LM := { s.nav.LM with lock := !s.nav.LM.lock } } }
  | .toggle .LM =>
    if s.nav.LM.lock == false then
      .ok { s with nav := { s.nav with
              LM := { s.nav.LM with value := if s.nav.LM.value != 0 then 0 else 1 } } }
    else .ok s
  | .lockToggle .joint =>
    if s.JointFlag == true then
      .ok { s with nav := { s.nav with joint := { s.nav.joint with lock := !s.nav.joint.lock } } }
    else .ok s
  | .toggle .joint =>
    if s.nav.joint.lock == false && s.JointFlag == true then
      .ok { s with nav := { s.nav with
              joint := { s.nav.joint with value := if s.nav.joint.value != 0 then 0 else 1 } } }
    else .ok s
  | .scrollUp released held =>
    match (if released then scrollUpPass fuel g s else .ok s) with
    | .error e => .error e
    | .ok s1 =>
      match scrollUpHeld fuel g held s1 with
      | .error e => .error e
      | .ok s2 => redraw g s2
  | .scrollDown released held =>
    match (if released then scrollDownPass fuel g s else .ok s) with
    | .error e => .error e
    | .ok s1 =>
      match scrollDownHeld fuel g held s1 with
      | .error e => .error e
      | .ok s2 => redraw g s2

/-- The start of a pad session in `Future`: `misType = 0`, `NavReset(nav)`, the
joint button forced when `JointFlag` is false, then `DrawFuture`, whose effect
on the navigator is `DrawMission(plr, 8, 37, mis, pad, 1, nav)`.  The value of
`JointMissionOK(plr, pad)` depends on `Data` and is a parameter. -/
def FutureInit (g : Globals) (plr : Int) (jointMissionOK : Bool) : Except Fault Session :=
  let misType := 0
  let nav := NavReset ⟨⟨0, false⟩, ⟨0, false⟩, ⟨0, false⟩, ⟨0, false⟩, ⟨0, false⟩⟩
  let nav := if !jointMissionOK then { nav with joint := { value := 0, lock := true } } else nav
  match DrawMission g misType nav with
  | .ok nav => .ok { plr := plr, JointFlag := jointMissionOK, misType := misType, nav := nav }
  | .error e => .error e

/-- A sequence of passes of the input loop. -/
def FutureRun (fuel : Nat) (g : Globals) : Session → List Event → Except Fault Session
  | s, [] => .ok s
  | s, e :: es =>
    match FutureStep fuel g s e with
    | .error err => .error err
    | .ok s1 => FutureRun fuel g s1 es

/-- The statements of `Future` that assign the cursor `misType` a search result
or the constant 0: `misType = UpSearchRout(misType, plr, nav)`,
`misType = DownSearchRout(misType, plr, nav)` and `misType = 0`.  The navigator
is the one in force when the statement runs.  The mission-steps toggle, which
reloads the cursor from `Data`, has no step here. -/
inductive CursorStep where
  | searchUp (nav : MissionNavigator)
  | searchDown (nav : MissionNavigator)
  | reset
  deriving DecidableEq, Repr

/-- The cursor `misType` after a sequence of assignments to it, each a search
result narrowed to `char` or the constant 0. -/
def cursorRun (fuel : Nat) (g : Globals) (plr : Int) : Int → List CursorStep → Except Fault Int
  | c, [] => .ok c
  | c, .searchUp nav :: rest =>
    match UpSearchRout fuel g c plr nav with
    | .ok (r, _) => cursorRun fuel g plr (toChar r) rest
    | .error e => .error e
  | c, .searchDown nav :: rest =>
    match DownSearchRout fuel g c plr nav with
    | .ok (r, _) => cursorRun fuel g plr (toChar r) rest
    | .error e => .error e
  | _, .reset :: rest => cursorRun fuel g plr 0 rest

/-! ## Vocabulary for the statements about the navigator -/

/-- The navigator `nav` with the value of the button of field `f` replaced by
`v`; the five lock flags and the other four values are those of `nav`. -/
def MissionNavigator.withValue (nav : MissionNavigator) (f : Field) (v : Int) :
    MissionNavigator :=
  match f with
  | .duration => { nav with duration := { nav.duration with value := v } }
  | .docking => { nav with docking := { nav.docking with value := v } }
  | .EVA => { nav with EVA := { nav.EVA with value := v } }
  | .LM => { nav with LM := { nav.LM with value := v } }
  | .joint => { nav with joint := { nav.joint with value := v } }

/-- The navigator `nav` with the lock flag of the button of field `f` replaced
by `b`; the five values and the other four lock flags are those of `nav`. -/
def MissionNavigator.withLock (nav : MissionNavigator) (f : Field) (b : Bool) :
    MissionNavigator :=
  match f with
  | .duration => { nav with duration := { nav.duration with lock := b } }
  | .docking => { nav with docking := { nav.docking with lock := b } }
  | .EVA => { nav with EVA := { nav.EVA with lock := b } }
  | .LM => { nav with LM := { nav.LM with lock := b } }
  | .joint => { nav with joint := { nav.joint with lock := b } }

/-- The attribute of a template that `PianoKey` copies into the button of a
field: `Days` for duration, `Doc` for docking, `EVA`, `LM`, and `Jt` for joint. -/
def mStr.attribute (m : mStr) : Field → Int
  | .duration => m.Days
  | .docking => m.Doc
  | .EVA => m.EVA
  | .LM => m.LM
  | .joint => m.Jt

/-- The navigator `nav` with the lock flag of every field in the set `S` set to
true; the five values and the other lock flags are those of `nav`. -/
def MissionNavigator.lockAlso (nav : MissionNavigator) (S : Field → Bool) : MissionNavigator :=
  { duration := { nav.duration with lock := nav.duration.lock || S .duration }
    docking := { nav.docking with lock := nav.docking.lock || S .docking }
    EVA := { nav.EVA with lock := nav.EVA.lock || S .EVA }
    LM := { nav.LM with lock := nav.LM.lock || S .LM }
    joint := { nav.joint with lock := nav.joint.lock || S .joint } }

/-- The state of a session of player `plr` in which joint missions are
unavailable: the joint flag is false, the joint button is locked at 0, and the
cursor lies in `[0, 56 + plr]` and points at a template whose `Jt` is 0. -/
def noJointSession (g : Globals) (plr : Int) (s : Session) : Prop :=
  s.plr = plr ∧ 0 ≤ s.misType ∧ s.misType ≤ 56 + plr ∧ s.JointFlag = false ∧
    s.nav.joint = ⟨0, true⟩ ∧ ∃ m, missionAt g s.misType = .ok m ∧ m.Jt = 0

/-- A sequence of calls of `SetParameters`, one for each given state of the
file `MISSION.DAT`, the vector `missionData` being carried from call to call
(the caller `Future` catches the exception and returns). -/
def SetParametersCalls : List (Option (List mStr)) → List mStr → List mStr
  | [], missionData => missionData
  | file :: rest, missionData => SetParametersCalls rest (SetParameters file missionData).1

/-! ## Example data -/

/-- A template with every attribute 0. -/
def zeroMission : mStr := ⟨0, 0, 0, 0, 0, 0, 0, 0⟩

/-- A navigator with every value 0 and no lock. -/
def freeNav : MissionNavigator := ⟨⟨0, false⟩, ⟨0, false⟩, ⟨0, false⟩, ⟨0, false⟩, ⟨0, false⟩⟩

/-- A navigator with only docking locked, at value 1. -/
def dockingNav : MissionNavigator := { freeNav with docking := ⟨1, true⟩ }

/-- A navigator with docking and EVA locked, both at value 1. -/
def dockingEVANav : MissionNavigator := { dockingNav with EVA := ⟨1, true⟩ }

/-- A navigator with only duration locked, at value 5. -/
def duration5Nav : MissionNavigator := { freeNav with duration := ⟨5, true⟩ }

/-- The template of the first scenario: docking 1, duration class 2, exact. -/
def dockingMission : mStr := { zeroMission with Index := 5, Doc := 1, Days := 2 }

/-- A template of duration class 3 whose duration is a minimum. -/
def minDurationMission : mStr := { zeroMission with Index := 10, Days := 3, Dur := 1 }

/-- A template of duration class 3 whose duration is exact. -/
def exactDurationMission : mStr := { zeroMission with Index := 10, Days := 3 }

/-- A catalog of 62 templates with every attribute 0; all three flyby flags
set; flyby codes 10, 12 and 13. -/
def plainGlobals : Globals :=
  { missionData := List.replicate 62 zeroMission
    MarsFlag := true, JupiterFlag := true, SaturnFlag := true
    Mission_MarsFlyby := 10, Mission_JupiterFlyby := 12, Mission_SaturnFlyby := 13 }

/-- A catalog of 62 templates in which exactly those at the given indices
require docking; flags and codes as in `plainGlobals`. -/
def dockingGlobals (idx : List Nat) : Globals :=
  { plainGlobals with
    missionData := (List.range 62).map
      (fun i => if i ∈ idx then { zeroMission with Doc := 1 } else zeroMission) }

/-- The globals `plainGlobals` with the three flyby flags cleared. -/
def noFlybyGlobals : Globals :=
  { plainGlobals with MarsFlag := false, JupiterFlag := false, SaturnFlag := false }

/-- A navigator with all five buttons locked, at the values 4, 1, 1, 0, 1. -/
def lockedNav : MissionNavigator := ⟨⟨4, true⟩, ⟨1, true⟩, ⟨1, true⟩, ⟨0, true⟩, ⟨1, true⟩⟩

/-- A template with the attributes duration class 2 (a minimum), docking 1,
EVA 1, LM 0, joint 1. -/
def jointMission : mStr :=
  { zeroMission with Index := 7, Days := 2, Dur := 1, Doc := 1, EVA := 1, Jt := 1 }

/-- A catalog of 62 copies of `jointMission`; flags and codes as in
`plainGlobals`. -/
def jointGlobals : Globals :=
  { plainGlobals with missionData := List.replicate 62 jointMission }

/-- A catalog of 62 templates in which template 0 has the duration class -1;
flags and codes as in `plainGlobals`. -/
def negativeDaysGlobals : Globals :=
  { plainGlobals with
    missionData := (List.range 62).map
      (fun i => if i = 0 then { zeroMission with Days := -1 } else zeroMission) }

/-- A file `MISSION.DAT` of `n` full records, the record at position `i` having
index `i` and every other attribute 0. -/
def missionFile (n : Nat) : List mStr :=
  (List.range n).map fun i => { zeroMission with Index := i }

/-- A catalog of 62 templates in which exactly those at the given indices are
joint missions (`Jt` is 1); flags and codes as in `plainGlobals`. -/
def jointAtGlobals (idx : List Nat) : Globals :=
  { plainGlobals with
    missionData := (List.range 62).map
      (fun i => if i ∈ idx then { zeroMission with Jt := 1 } else zeroMission) }

/-! ## The scan performed by the two search loops -/

/-- Inside a catalog of 62 entries the loop test yields `accepted`. -/
theorem candidate_eq (g : Globals) (nav : MissionNavigator) (i : Int)
    (hlen : g.missionData.length = 62) (h0 : 0 ≤ i) (h1 : i < 62) :
    candidate g nav i = .ok (accepted g nav i) := by
  have hm : ∃ m, missionAt g i = .ok m := by
    unfold missionAt
    have hlt : i.toNat < g.missionData.length := by omega
    simp [h0, List.getElem?_eq_getElem hlt]
  obtain ⟨m, hm⟩ := hm
  unfold candidate accepted
  cases hg : flybyGated g i <;> simp [hm]

/-- The forward loop entered at `num`, `d` steps before `orig`: it returns, it
examines at most `d + 1` candidates, all inside `[0, M)`, and it yields either 0
with no candidate before `orig` accepted, or the first accepted candidate. -/
theorem upLoop_scan (g : Globals) (nav : MissionNavigator) (plr orig M : Int)
    (hM : M = 57 ∨ M = 58) (hplr : 56 + plr = M - 1) (hlen : g.missionData.length = 62) :
    ∀ (d : Nat) (num : Int) (fuel : Nat), 0 ≤ num → num < M → (num + d) % M = orig →
      (d : Int) < M → d + 1 ≤ fuel →
      ∃ r tr, UpSearchLoop g plr nav orig fuel num = .ok (r, tr) ∧ tr.length ≤ d + 1 ∧
        (∀ i ∈ tr, 0 ≤ i ∧ i < M) ∧
        ((r = 0 ∧ ∀ j : Nat, j < d → accepted g nav ((num + j) % M) = false) ∨
         (∃ k : Nat, k < d ∧ r = (num + k) % M ∧ accepted g nav r = true ∧
            ∀ j : Nat, j < k → accepted g nav ((num + j) % M) = false)) := by
  intro d
  induction d with
  | zero =>
    intro num fuel h0 h1 hd _ hf
    obtain ⟨f, rfl⟩ : ∃ f, fuel = f + 1 := ⟨fuel - 1, by omega⟩
    have hno : num = orig := by rcases hM with rfl | rfl <;> omega
    have h62 : num < 62 := by rcases hM with rfl | rfl <;> omega
    refine ⟨0, [num], ?_, by simp, ?_, Or.inl ⟨rfl, fun j hj => absurd hj (Nat.not_lt_zero j)⟩⟩
    · rw [UpSearchLoop, candidate_eq g nav num hlen h0 h62]; simp [hno]
    · simp; omega
  | succ d ih =>
    intro num fuel h0 h1 hd hdM hf
    obtain ⟨f, rfl⟩ : ∃ f, fuel = f + 1 := ⟨fuel - 1, by omega⟩
    have hne : num ≠ orig := by rcases hM with rfl | rfl <;> omega
    have h62 : num < 62 := by rcases hM with rfl | rfl <;> omega
    have hnum : num % M = num := by rcases hM with rfl | rfl <;> omega
    cases hacc : accepted g nav num with
    | true =>
      refine ⟨num, [num], ?_, by simp, ?_, Or.inr ⟨0, Nat.succ_pos d, by simpa using hnum.symm, hacc,
        fun j hj => absurd hj (Nat.not_lt_zero j)⟩⟩
      · rw [UpSearchLoop, candidate_eq g nav num hlen h0 h62]; simp [hne, hacc]
      · simp; omega
    | false =>
      have hnext : (if num + 1 > 56 + plr then 0 else num + 1) = (num + 1) % M := by
        split <;> rcases hM with rfl | rfl <;> omega
      have hshift : ∀ j : Nat, ((num + 1) % M + j) % M = (num + (j + 1 : Nat)) % M := by
        intro j; rcases hM with rfl | rfl <;> omega
      obtain ⟨r, tr, hrun, hlen', hmem, hres⟩ := ih ((num + 1) % M) f
        (by rcases hM with rfl | rfl <;> omega) (by rcases hM with rfl | rfl <;> omega)
        (by rw [hshift]; exact hd) (by omega) (by omega)
      refine ⟨r, num :: tr, ?_, by simp; omega, ?_, ?_⟩
      · rw [UpSearchLoop, candidate_eq g nav num hlen h0 h62, hnext, hrun]; simp [hne, hacc]
      · intro i hi
        rcases List.mem_cons.mp hi with rfl | hi
        · exact ⟨h0, h1⟩
        · exact hmem i hi
      · rcases hres with ⟨hr, hall⟩ | ⟨k, hk, hrk, hracc, hall⟩
        · refine Or.inl ⟨hr, fun j hj => ?_⟩
          cases j with
          | zero => simpa [hnum] using hacc
          | succ j => rw [← hshift]; exact hall j (by omega)
        · refine Or.inr ⟨k + 1, by omega, by rw [hrk, hshift], hracc, fun j hj => ?_⟩
          cases j with
          | zero => simpa [hnum] using hacc
          | succ j => rw [← hshift]; exact hall j (by omega)

/-- The backward loop entered at `num`, `d` steps before `orig`; as
`upLoop_scan`, in descending order. -/
theorem downLoop_scan (g : Globals) (nav : MissionNavigator) (plr orig M : Int)
    (hM : M = 57 ∨ M = 58) (hplr : 56 + plr = M - 1) (hlen : g.missionData.length = 62) :
    ∀ (d : Nat) (num : Int) (fuel : Nat), 0 ≤ num → num < M → (num - d) % M = orig →
      (d : Int) < M → d + 1 ≤ fuel →
      ∃ r tr, DownSearchLoop g plr nav orig fuel num = .ok (r, tr) ∧ tr.length ≤ d + 1 ∧
        (∀ i ∈ tr, 0 ≤ i ∧ i < M) ∧
        ((r = 0 ∧ ∀ j : Nat, j < d → accepted g nav ((num - j) % M) = false) ∨
         (∃ k : Nat, k < d ∧ r = (num - k) % M ∧ accepted g nav r = true ∧
            ∀ j : Nat, j < k → accepted g nav ((num - j) % M) = false)) := by
  intro d
  induction d with
  | zero =>
    intro num fuel h0 h1 hd _ hf
    obtain ⟨f, rfl⟩ : ∃ f, fuel = f + 1 := ⟨fuel - 1, by omega⟩
    have hno : num = orig := by rcases hM with rfl | rfl <;> omega
    have h62 : num < 62 := by rcases hM with rfl | rfl <;> omega
    refine ⟨0, [num], ?_, by simp, ?_, Or.inl ⟨rfl, fun j hj => absurd hj (Nat.not_lt_zero j)⟩⟩
    · rw [DownSearchLoop, candidate_eq g nav num hlen h0 h62]; simp [hno]
    · simp; omega
  | succ d ih =>
    intro num fuel h0 h1 hd hdM hf
    obtain ⟨f, rfl⟩ : ∃ f, fuel = f + 1 := ⟨fuel - 1, by omega⟩
    have hne : num ≠ orig := by rcases hM with rfl | rfl <;> omega
    have h62 : num < 62 := by rcases hM with rfl | rfl <;> omega
    have hnum : num % M = num := by rcases hM with rfl | rfl <;> omega
    cases hacc : accepted g nav num with
    | true =>
      refine ⟨num, [num], ?_, by simp, ?_, Or.inr ⟨0, Nat.succ_pos d, by simpa using hnum.symm, hacc,
        fun j hj => absurd hj (Nat.not_lt_zero j)⟩⟩
      · rw [DownSearchLoop, candidate_eq g nav num hlen h0 h62]; simp [hne, hacc]
      · simp; omega
    | false =>
      have hnext : (if num - 1 < 0 then 56 + plr else num - 1) = (num - 1) % M := by
        split <;> rcases hM with rfl | rfl <;> omega
      have hshift : ∀ j : Nat, ((num - 1) % M - j) % M = (num - (j + 1 : Nat)) % M := by
        intro j; rcases hM with rfl | rfl <;> omega
      obtain ⟨r, tr, hrun, hlen', hmem, hres⟩ := ih ((num - 1) % M) f
        (by rcases hM with rfl | rfl <;> omega) (by rcases hM with rfl | rfl <;> omega)
        (by rw [hshift]; exact hd) (by omega) (by omega)
      refine ⟨r, num :: tr, ?_, by simp; omega, ?_, ?_⟩
      · rw [DownSearchLoop, candidate_eq g nav num hlen h0 h62, hnext, hrun]; simp [hne, hacc]
      · intro i hi
        rcases List.mem_cons.mp hi with rfl | hi
        · exact ⟨h0, h1⟩
        · exact hmem i hi
      · rcases hres with ⟨hr, hall⟩ | ⟨k, hk, hrk, hracc, hall⟩
        · refine Or.inl ⟨hr, fun j hj => ?_⟩
          cases j with
          | zero => simpa [hnum] using hacc
          | succ j => rw [← hshift]; exact hall j (by omega)
        · refine Or.inr ⟨k + 1, by omega, by rw [hrk, hshift], hracc, fun j hj => ?_⟩
          cases j with
          | zero => simpa [hnum] using hacc
          | succ j => rw [← hshift]; exact hall j (by omega)

/-- Forward search from a start other than `55 + plr`. -/
theorem up_scan (g : Globals) (nav : MissionNavigator) (plr s M : Int) (fuel : Nat)
    (hM : M = 57 ∨ M = 58) (hplr : 56 + plr = M - 1) (hlen : g.missionData.length = 62)
    (hs0 : 0 ≤ s) (hs1 : s < M) (hs : s ≠ M - 2) (hf : M ≤ fuel) :
    ∃ r tr, UpSearchRout fuel g s plr nav = .ok (r, tr) ∧ (tr.length : Int) ≤ M ∧
      (∀ i ∈ tr, 0 ≤ i ∧ i < M) ∧
      ((r = 0 ∧ ∀ t : Nat, 1 ≤ t → (t : Int) < M → accepted g nav ((s + t) % M) = false) ∨
       (∃ k : Nat, 1 ≤ k ∧ (k : Int) < M ∧ r = (s + k) % M ∧ accepted g nav r = true ∧
          ∀ t : Nat, 1 ≤ t → t < k → accepted g nav ((s + t) % M) = false)) := by
  have hfirst : (if s + 1 ≥ 56 + plr then 0 else s + 1) = (s + 1) % M := by
    split <;> rcases hM with rfl | rfl <;> omega
  have hshift : ∀ j : Nat, ((s + 1) % M + j) % M = (s + (j + 1 : Nat)) % M := by
    intro j; rcases hM with rfl | rfl <;> omega
  obtain ⟨r, tr, hrun, hlen', hmem, hres⟩ := upLoop_scan g nav plr s M hM hplr hlen (M - 1).toNat
    ((s + 1) % M) fuel (by rcases hM with rfl | rfl <;> omega) (by rcases hM with rfl | rfl <;> omega)
    (by rcases hM with rfl | rfl <;> omega) (by rcases hM with rfl | rfl <;> omega)
    (by rcases hM with rfl | rfl <;> omega)
  refine ⟨r, tr, ?_, by rcases hM with rfl | rfl <;> omega, hmem, ?_⟩
  · unfold UpSearchRout; simp only []; rw [hfirst]; exact hrun
  · rcases hres with ⟨hr, hall⟩ | ⟨k, hk, hrk, hracc, hall⟩
    · refine Or.inl ⟨hr, fun t ht1 ht2 => ?_⟩
      obtain ⟨j, rfl⟩ : ∃ j, t = j + 1 := ⟨t - 1, by omega⟩
      rw [← hshift]; exact hall j (by rcases hM with rfl | rfl <;> omega)
    · refine Or.inr ⟨k + 1, by omega, by rcases hM with rfl | rfl <;> omega, by rw [hrk, hshift],
        hracc, fun t ht1 ht2 => ?_⟩
      obtain ⟨j, rfl⟩ : ∃ j, t = j + 1 := ⟨t - 1, by omega⟩
      rw [← hshift]; exact hall j (by omega)

/-- Forward search from the start `55 + plr`: the first candidate is 0 and the
scan ends on reaching `55 + plr` again. -/
theorem up_scan_penultimate (g : Globals) (nav : MissionNavigator) (plr M : Int) (fuel : Nat)
    (hM : M = 57 ∨ M = 58) (hplr : 56 + plr = M - 1) (hlen : g.missionData.length = 62)
    (hf : M ≤ fuel) :
    ∃ r tr, UpSearchRout fuel g (M - 2) plr nav = .ok (r, tr) ∧ (tr.length : Int) ≤ M ∧
      (∀ i ∈ tr, 0 ≤ i ∧ i < M) ∧
      ((r = 0 ∧ ∀ t : Nat, (t : Int) < M - 2 → accepted g nav t = false) ∨
       (∃ k : Nat, (k : Int) < M - 2 ∧ r = k ∧ accepted g nav r = true ∧
          ∀ t : Nat, t < k → accepted g nav t = false)) := by
  have hfirst : (if M - 2 + 1 ≥ 56 + plr then 0 else M - 2 + 1) = (0 : Int) := by
    split <;> omega
  have hid : ∀ j : Nat, (j : Int) < M - 2 → ((0 : Int) + j) % M = j := by
    intro j hj; rcases hM with rfl | rfl <;> omega
  obtain ⟨r, tr, hrun, hlen', hmem, hres⟩ := upLoop_scan g nav plr (M - 2) M hM hplr hlen
    (M - 2).toNat 0 fuel (le_refl 0) (by rcases hM with rfl | rfl <;> omega)
    (by rcases hM with rfl | rfl <;> omega) (by rcases hM with rfl | rfl <;> omega)
    (by rcases hM with rfl | rfl <;> omega)
  refine ⟨r, tr, ?_, by rcases hM with rfl | rfl <;> omega, hmem, ?_⟩
  · unfold UpSearchRout; simp only []; rw [hfirst]; exact hrun
  · rcases hres with ⟨hr, hall⟩ | ⟨k, hk, hrk, hracc, hall⟩
    · refine Or.inl ⟨hr, fun t ht => ?_⟩
      rw [← hid t ht]; exact hall t (by omega)
    · refine Or.inr ⟨k, by omega, by rw [hrk]; exact hid k (by omega), hracc, fun t ht => ?_⟩
      rw [← hid t (by omega)]; exact hall t ht

/-- Backward search. -/
theorem down_scan (g : Globals) (nav : MissionNavigator) (plr s M : Int) (fuel : Nat)
    (hM : M = 57 ∨ M = 58) (hplr : 56 + plr = M - 1) (hlen : g.missionData.length = 62)
    (hs0 : 0 ≤ s) (hs1 : s < M) (hf : M ≤ fuel) :
    ∃ r tr, DownSearchRout fuel g s plr nav = .ok (r, tr) ∧ (tr.length : Int) ≤ M ∧
      (∀ i ∈ tr, 0 ≤ i ∧ i < M) ∧
      ((r = 0 ∧ ∀ t : Nat, 1 ≤ t → (t : Int) < M → accepted g nav ((s - t) % M) = false) ∨
       (∃ k : Nat, 1 ≤ k ∧ (k : Int) < M ∧ r = (s - k) % M ∧ accepted g nav r = true ∧
          ∀ t : Nat, 1 ≤ t → t < k → accepted g nav ((s - t) % M) = false)) := by
  have hfirst : (if s - 1 < 0 then 56 + plr else s - 1) = (s - 1) % M := by
    split <;> rcases hM with rfl | rfl <;> omega
  have hshift : ∀ j : Nat, ((s - 1) % M - j) % M = (s - (j + 1 : Nat)) % M := by
    intro j; rcases hM with rfl | rfl <;> omega
  obtain ⟨r, tr, hrun, hlen', hmem, hres⟩ := downLoop_scan g nav plr s M hM hplr hlen (M - 1).toNat
    ((s - 1) % M) fuel (by rcases hM with rfl | rfl <;> omega) (by rcases hM with rfl | rfl <;> omega)
    (by rcases hM with rfl | rfl <;> omega) (by rcases hM with rfl | rfl <;> omega)
    (by rcases hM with rfl | rfl <;> omega)
  refine ⟨r, tr, ?_, by rcases hM with rfl | rfl <;> omega, hmem, ?_⟩
  · unfold DownSearchRout; simp only []; rw [hfirst]; exact hrun
  · rcases hres with ⟨hr, hall⟩ | ⟨k, hk, hrk, hracc, hall⟩
    · refine Or.inl ⟨hr, fun t ht1 ht2 => ?_⟩
      obtain ⟨j, rfl⟩ : ∃ j, t = j + 1 := ⟨t - 1, by omega⟩
      rw [← hshift]; exact hall j (by rcases hM with rfl | rfl <;> omega)
    · refine Or.inr ⟨k + 1, by omega, by rcases hM with rfl | rfl <;> omega, by rw [hrk, hshift],
        hracc, fun t ht1 ht2 => ?_⟩
      obtain ⟨j, rfl⟩ : ∃ j, t = j + 1 := ⟨t - 1, by omega⟩
      rw [← hshift]; exact hall j (by omega)


/-! ## The match test -/

/-- C1: `NavMatch(nav, m)` is true exactly when the docking, EVA, LM and joint
buttons are each unlocked or equal to the attribute of the template, and the
duration button is unlocked, or equal to `m.Days`, or `m.Dur` is non-zero and
the duration value is at least `m.Days`; with the four concrete scenarios. -/
theorem C1_NavMatch_iff :
    (∀ (nav : MissionNavigator) (m : mStr), NavMatch nav m = true ↔
      ((nav.docking.lock = false ∨ nav.docking.value = m.Doc) ∧
       (nav.EVA.lock = false ∨ nav.EVA.value = m.EVA) ∧
       (nav.LM.lock = false ∨ nav.LM.value = m.LM) ∧
       (nav.joint.lock = false ∨ nav.joint.value = m.Jt) ∧
       (nav.duration.lock = false ∨ nav.duration.value = m.Days ∨
         (m.Dur ≠ 0 ∧ nav.duration.value ≥ m.Days)))) ∧
    NavMatch dockingNav dockingMission = true ∧
    NavMatch dockingEVANav dockingMission = false ∧
    NavMatch duration5Nav minDurationMission = true ∧
    NavMatch duration5Nav exactDurationMission = false := by
  refine ⟨fun nav m => ?_, by decide, by decide, by decide, by decide⟩
  simp [NavMatch, and_assoc, or_assoc]

/-! ## Forward search -/

/-- C2: evaluation at the failing input.  With player 0, start 55, docking
locked at 1 and exactly the templates 3 and 56 requiring docking, index 56 is
the first accepted index in the order 56, 0, 1, ..., yet the search returns 3:
the first candidate examined is 0, not 56.  With only template 56 requiring
docking the search returns 0 although index 56 is accepted. -/
theorem C2_up_skips_last :
    accepted (dockingGlobals [3, 56]) dockingNav ((55 + 1) % (57 + 0)) = true ∧
    UpSearchRout 57 (dockingGlobals [3, 56]) 55 0 dockingNav = .ok (3, [0, 1, 2, 3]) ∧
    accepted (dockingGlobals [56]) dockingNav 56 = true ∧
    (UpSearchRout 57 (dockingGlobals [56]) 55 0 dockingNav).map Prod.fst = .ok 0 := by
  refine ⟨by decide, by rfl, by decide, by rfl⟩

/-! ## Backward search -/

/-- Every index of `[0, M)` other than `s` lies `t` places below `s` in cyclic
order, for some `t` with `1 ≤ t < M`. -/
theorem below_offset (M s i : Int) (hM : M = 57 ∨ M = 58) (hs0 : 0 ≤ s) (hs1 : s < M)
    (hi0 : 0 ≤ i) (hi1 : i < M) (hne : i ≠ s) :
    ∃ t : Nat, 1 ≤ t ∧ (t : Int) < M ∧ (s - t) % M = i := by
  refine ⟨((s - i) % M).toNat, ?_, ?_, ?_⟩ <;> rcases hM with rfl | rfl <;> omega

/-- Every index of `[0, M)` other than `s` lies `t` places above `s` in cyclic
order, for some `t` with `1 ≤ t < M`. -/
theorem above_offset (M s i : Int) (hM : M = 57 ∨ M = 58) (hs0 : 0 ≤ s) (hs1 : s < M)
    (hi0 : 0 ≤ i) (hi1 : i < M) (hne : i ≠ s) :
    ∃ t : Nat, 1 ≤ t ∧ (t : Int) < M ∧ (s + t) % M = i := by
  refine ⟨((i - s) % M).toNat, ?_, ?_, ?_⟩ <;> rcases hM with rfl | rfl <;> omega

/-- C3: when some index of `[0, 56 + plr]` other than the start `s` is
accepted, `DownSearchRout(s, plr, nav)` returns the first accepted index in the
order `s - 1, s - 2, ...`, wrapping from 0 to `56 + plr`: it returns
`(s - k) mod (57 + plr)` for some `1 ≤ k ≤ 56 + plr`, that index is accepted,
and none of the indices `(s - t) mod (57 + plr)` with `1 ≤ t < k` is. -/
theorem C3_down_first_accepted (g : Globals) (nav : MissionNavigator) (plr s : Int) (fuel : Nat)
    (hplr : plr = 0 ∨ plr = 1) (hlen : g.missionData.length = 62)
    (hs0 : 0 ≤ s) (hs1 : s ≤ 56 + plr) (hf : 57 + plr ≤ fuel)
    (hex : ∃ i, 0 ≤ i ∧ i ≤ 56 + plr ∧ i ≠ s ∧ accepted g nav i = true) :
    ∃ (k : Nat) (tr : List Int), 1 ≤ k ∧ (k : Int) ≤ 56 + plr ∧
      DownSearchRout fuel g s plr nav = .ok ((s - k) % (57 + plr), tr) ∧
      accepted g nav ((s - k) % (57 + plr)) = true ∧
      ∀ t : Nat, 1 ≤ t → t < k → accepted g nav ((s - t) % (57 + plr)) = false := by
  have hM : 57 + plr = 57 ∨ 57 + plr = 58 := by omega
  obtain ⟨r, tr, hrun, -, -, hres⟩ :=
    down_scan g nav plr s (57 + plr) fuel hM (by omega) hlen hs0 (by omega) hf
  obtain ⟨i, hi0, hi1, hne, hacc⟩ := hex
  rcases hres with ⟨-, hall⟩ | ⟨k, hk1, hkM, hrk, hracc, hall⟩
  · obtain ⟨t, ht1, htM, hti⟩ := below_offset (57 + plr) s i hM hs0 (by omega) hi0 (by omega) hne
    have := hall t ht1 htM
    rw [hti, hacc] at this
    exact absurd this (by decide)
  · exact ⟨k, tr, hk1, by omega, by rw [← hrk]; exact hrun, by rw [← hrk]; exact hracc, hall⟩

/-- C3 at a concrete input: player 1, start 0, docking locked at 1, templates 3
and 56 requiring docking; the hypotheses hold there and the search returns an
index of the stated form. -/
theorem C3_down_first_accepted_witness :
    (dockingGlobals [3, 56]).missionData.length = 62 ∧
    (∃ i : Int, 0 ≤ i ∧ i ≤ 56 + 1 ∧ i ≠ 0 ∧ accepted (dockingGlobals [3, 56]) dockingNav i = true) ∧
    ∃ (k : Nat) (tr : List Int), 1 ≤ k ∧ (k : Int) ≤ 56 + 1 ∧
      DownSearchRout 58 (dockingGlobals [3, 56]) 0 1 dockingNav = .ok ((0 - k) % (57 + 1), tr) ∧
      accepted (dockingGlobals [3, 56]) dockingNav ((0 - k) % (57 + 1)) = true ∧
      ∀ t : Nat, 1 ≤ t → t < k →
        accepted (dockingGlobals [3, 56]) dockingNav ((0 - t) % (57 + 1)) = false :=
  ⟨by simp [dockingGlobals], ⟨3, by decide, by decide, by decide, by decide⟩,
    C3_down_first_accepted (dockingGlobals [3, 56]) dockingNav 1 0 58 (Or.inr rfl)
      (by simp [dockingGlobals]) (by decide) (by decide) (by decide)
      ⟨3, by decide, by decide, by decide, by decide⟩⟩

/-! ## The value 0 as the no-match result -/

/-- C4, counterexample: for player 0, start 1, nothing locked and every flyby
available, index 0 is an accepted index other than the start, and
`DownSearchRout` returns 0 all the same; so "returns 0" is not equivalent to
"no index other than the start is accepted". -/
theorem C4_zero_returned_with_other_match :
    ¬ ((∃ tr, DownSearchRout 57 plainGlobals 1 0 freeNav = .ok (0, tr)) ↔
        ∀ i : Int, 0 ≤ i → i ≤ 56 + 0 → i ≠ 1 → accepted plainGlobals freeNav i = false) := by
  intro h
  have hall := h.mp ⟨[0], by rfl⟩
  exact absurd (hall 0 (by decide) (by decide) (by decide)) (by decide)

/-- C4, amended: both searches return 0 when no index of `[0, 56 + plr]` other
than the start `s` is accepted (so also when `s` is the only accepted index).
The value 0 is also what they return when index 0 is the first accepted index
of the scan: `DownSearchRout` returns 0 exactly when no other index is accepted
or `s ≠ 0`, index 0 is accepted and no index strictly between 0 and `s` is;
`UpSearchRout` from a start other than `55 + plr` returns 0 exactly when no
other index is accepted or `s ≠ 0`, index 0 is accepted and no index above `s`
is. -/
theorem C4_no_match_result (g : Globals) (nav : MissionNavigator) (plr s : Int) (fuel : Nat)
    (hplr : plr = 0 ∨ plr = 1) (hlen : g.missionData.length = 62)
    (hs0 : 0 ≤ s) (hs1 : s ≤ 56 + plr) (hf : 57 + plr ≤ fuel) :
    (∃ r tr, DownSearchRout fuel g s plr nav = .ok (r, tr) ∧
      (r = 0 ↔
        ((∀ i : Int, 0 ≤ i → i ≤ 56 + plr → i ≠ s → accepted g nav i = false) ∨
         (s ≠ 0 ∧ accepted g nav 0 = true ∧
            ∀ i : Int, 0 < i → i < s → accepted g nav i = false)))) ∧
    (∃ r tr, UpSearchRout fuel g s plr nav = .ok (r, tr) ∧
      ((∀ i : Int, 0 ≤ i → i ≤ 56 + plr → i ≠ s → accepted g nav i = false) → r = 0) ∧
      (s ≠ 55 + plr →
        (r = 0 ↔
          ((∀ i : Int, 0 ≤ i → i ≤ 56 + plr → i ≠ s → accepted g nav i = false) ∨
           (s ≠ 0 ∧ accepted g nav 0 = true ∧
              ∀ i : Int, s < i → i ≤ 56 + plr → accepted g nav i = false))))) := by
  have hM : 57 + plr = 57 ∨ 57 + plr = 58 := by omega
  generalize hMdef : 57 + plr = M at hM hf
  have hpM : 56 + plr = M - 1 := by omega
  rw [hpM]
  refine ⟨?_, ?_⟩
  · obtain ⟨r, tr, hrun, -, -, hres⟩ := down_scan g nav plr s M fuel hM hpM hlen hs0 (by omega) hf
    refine ⟨r, tr, hrun, ?_⟩
    rcases hres with ⟨hr, hall⟩ | ⟨k, hk1, hkM, hrk, hracc, hall⟩
    · refine ⟨fun _ => Or.inl fun i hi0 hi1 hne => ?_, fun _ => hr⟩
      obtain ⟨t, ht1, htM, hti⟩ := below_offset M s i hM hs0 (by omega) hi0 (by omega) hne
      rw [← hti]; exact hall t ht1 htM
    · constructor
      · intro hr
        have hks : (k : Int) = s := by rcases hM with rfl | rfl <;> omega
        refine Or.inr ⟨by omega, by rw [← hr]; exact hracc, fun i hi0 hi1 => ?_⟩
        have := hall (s - i).toNat (by omega) (by omega)
        have hidx : (s - ((s - i).toNat : Nat)) % M = i := by rcases hM with rfl | rfl <;> omega
        rw [hidx] at this; exact this
      · rintro (hA | ⟨hsne, h0, hb⟩)
        · have := hA r (by rcases hM with rfl | rfl <;> omega) (by rcases hM with rfl | rfl <;> omega)
            (by rcases hM with rfl | rfl <;> omega)
          rw [hracc] at this; exact absurd this (by decide)
        · rcases lt_trichotomy (k : Int) s with hlt | heq | hgt
          · have := hb r (by rcases hM with rfl | rfl <;> omega) (by rcases hM with rfl | rfl <;> omega)
            rw [hracc] at this; exact absurd this (by decide)
          · rcases hM with rfl | rfl <;> omega
          · have := hall s.toNat (by omega) (by omega)
            have hidx : (s - (s.toNat : Nat)) % M = 0 := by rcases hM with rfl | rfl <;> omega
            rw [hidx, h0] at this; exact absurd this (by decide)
  · by_cases hpen : s = M - 2
    · subst hpen
      obtain ⟨r, tr, hrun, -, -, hres⟩ := up_scan_penultimate g nav plr M fuel hM hpM hlen hf
      refine ⟨r, tr, hrun, fun hA => ?_, fun h => absurd (by omega) h⟩
      rcases hres with ⟨hr, -⟩ | ⟨k, hk, hrk, hracc, -⟩
      · exact hr
      · have := hA r (by omega) (by omega) (by omega)
        rw [hracc] at this; exact absurd this (by decide)
    · obtain ⟨r, tr, hrun, -, -, hres⟩ :=
        up_scan g nav plr s M fuel hM hpM hlen hs0 (by omega) hpen hf
      refine ⟨r, tr, hrun, ?_, fun _ => ?_⟩
      · intro hA
        rcases hres with ⟨hr, -⟩ | ⟨k, hk1, hkM, hrk, hracc, -⟩
        · exact hr
        · have := hA r (by rcases hM with rfl | rfl <;> omega) (by rcases hM with rfl | rfl <;> omega)
            (by rcases hM with rfl | rfl <;> omega)
          rw [hracc] at this; exact absurd this (by decide)
      · rcases hres with ⟨hr, hall⟩ | ⟨k, hk1, hkM, hrk, hracc, hall⟩
        · refine ⟨fun _ => Or.inl fun i hi0 hi1 hne => ?_, fun _ => hr⟩
          obtain ⟨t, ht1, htM, hti⟩ := above_offset M s i hM hs0 (by omega) hi0 (by omega) hne
          rw [← hti]; exact hall t ht1 htM
        · constructor
          · intro hr
            have hks : (k : Int) = M - s := by rcases hM with rfl | rfl <;> omega
            refine Or.inr ⟨by omega, by rw [← hr]; exact hracc, fun i hi0 hi1 => ?_⟩
            have := hall (i - s).toNat (by omega) (by omega)
            have hidx : (s + ((i - s).toNat : Nat)) % M = i := by
              rcases hM with rfl | rfl <;> omega
            rw [hidx] at this; exact this
          · rintro (hA | ⟨hsne, h0, hb⟩)
            · have := hA r (by rcases hM with rfl | rfl <;> omega)
                (by rcases hM with rfl | rfl <;> omega) (by rcases hM with rfl | rfl <;> omega)
              rw [hracc] at this; exact absurd this (by decide)
            · rcases lt_trichotomy (k : Int) (M - s) with hlt | heq | hgt
              · have := hb r (by rcases hM with rfl | rfl <;> omega)
                  (by rcases hM with rfl | rfl <;> omega)
                rw [hracc] at this; exact absurd this (by decide)
              · rcases hM with rfl | rfl <;> omega
              · have := hall (M - s).toNat (by omega) (by omega)
                have hidx : (s + ((M - s).toNat : Nat)) % M = 0 := by
                  rcases hM with rfl | rfl <;> omega
                rw [hidx, h0] at this; exact absurd this (by decide)

/-- C4 (amended) at a concrete input: player 0, start 3, docking locked at 1,
templates 3 and 56 requiring docking. -/
theorem C4_no_match_result_witness :
    (dockingGlobals [3, 56]).missionData.length = 62 ∧ (0 : Int) ≤ 3 ∧ (3 : Int) ≤ 56 + 0 ∧
    (∃ r tr, DownSearchRout 57 (dockingGlobals [3, 56]) 3 0 dockingNav = .ok (r, tr) ∧
      (r = 0 ↔
        ((∀ i : Int, 0 ≤ i → i ≤ 56 + 0 → i ≠ 3 →
            accepted (dockingGlobals [3, 56]) dockingNav i = false) ∨
         ((3 : Int) ≠ 0 ∧ accepted (dockingGlobals [3, 56]) dockingNav 0 = true ∧
            ∀ i : Int, 0 < i → i < 3 →
              accepted (dockingGlobals [3, 56]) dockingNav i = false)))) ∧
    (∃ r tr, UpSearchRout 57 (dockingGlobals [3, 56]) 3 0 dockingNav = .ok (r, tr) ∧
      ((∀ i : Int, 0 ≤ i → i ≤ 56 + 0 → i ≠ 3 →
          accepted (dockingGlobals [3, 56]) dockingNav i = false) → r = 0) ∧
      ((3 : Int) ≠ 55 + 0 →
        (r = 0 ↔
          ((∀ i : Int, 0 ≤ i → i ≤ 56 + 0 → i ≠ 3 →
              accepted (dockingGlobals [3, 56]) dockingNav i = false) ∨
           ((3 : Int) ≠ 0 ∧ accepted (dockingGlobals [3, 56]) dockingNav 0 = true ∧
              ∀ i : Int, 3 < i → i ≤ 56 + 0 →
                accepted (dockingGlobals [3, 56]) dockingNav i = false))))) :=
  ⟨by simp [dockingGlobals], by decide, by decide,
    C4_no_match_result (dockingGlobals [3, 56]) dockingNav 0 3 57 (Or.inl rfl)
      (by simp [dockingGlobals]) (by decide) (by decide) (by decide)⟩

/-! ## Termination, gating and bounds of the searches -/

/-- Both searches from a start `s` in `[0, 56 + plr]`: each returns, examines at
most `57 + plr` candidates, all inside `[0, 56 + plr]`, and returns either 0 or
an accepted index of `[0, 56 + plr]` other than `s`. -/
theorem search_total (g : Globals) (nav : MissionNavigator) (plr s : Int) (fuel : Nat)
    (hplr : plr = 0 ∨ plr = 1) (hlen : g.missionData.length = 62)
    (hs0 : 0 ≤ s) (hs1 : s ≤ 56 + plr) (hf : 57 + plr ≤ fuel) :
    (∃ r tr, UpSearchRout fuel g s plr nav = .ok (r, tr) ∧ (tr.length : Int) ≤ 57 + plr ∧
      (∀ i ∈ tr, 0 ≤ i ∧ i ≤ 56 + plr) ∧ 0 ≤ r ∧ r ≤ 56 + plr ∧
      (r = 0 ∨ (accepted g nav r = true ∧ r ≠ s))) ∧
    (∃ r tr, DownSearchRout fuel g s plr nav = .ok (r, tr) ∧ (tr.length : Int) ≤ 57 + plr ∧
      (∀ i ∈ tr, 0 ≤ i ∧ i ≤ 56 + plr) ∧ 0 ≤ r ∧ r ≤ 56 + plr ∧
      (r = 0 ∨ (accepted g nav r = true ∧ r ≠ s))) := by
  have hM : 57 + plr = 57 ∨ 57 + plr = 58 := by omega
  generalize hMdef : 57 + plr = M at hM hf
  have hpM : 56 + plr = M - 1 := by omega
  rw [hpM]
  have hmem : ∀ tr : List Int, (∀ i ∈ tr, 0 ≤ i ∧ i < M) → ∀ i ∈ tr, 0 ≤ i ∧ i ≤ M - 1 :=
    fun tr h i hi => ⟨(h i hi).1, by have := (h i hi).2; omega⟩
  refine ⟨?_, ?_⟩
  · by_cases hpen : s = M - 2
    · subst hpen
      obtain ⟨r, tr, hrun, hl, hm, hres⟩ := up_scan_penultimate g nav plr M fuel hM hpM hlen hf
      refine ⟨r, tr, hrun, hl, hmem tr hm, ?_⟩
      rcases hres with ⟨hr, -⟩ | ⟨k, hk, hrk, hracc, -⟩
      · exact ⟨by omega, by omega, Or.inl hr⟩
      · exact ⟨by omega, by omega, Or.inr ⟨hracc, by omega⟩⟩
    · obtain ⟨r, tr, hrun, hl, hm, hres⟩ :=
        up_scan g nav plr s M fuel hM hpM hlen hs0 (by omega) hpen hf
      refine ⟨r, tr, hrun, hl, hmem tr hm, ?_⟩
      rcases hres with ⟨hr, -⟩ | ⟨k, hk1, hkM, hrk, hracc, -⟩
      · exact ⟨by omega, by omega, Or.inl hr⟩
      · exact ⟨by rcases hM with rfl | rfl <;> omega, by rcases hM with rfl | rfl <;> omega,
          Or.inr ⟨hracc, by rcases hM with rfl | rfl <;> omega⟩⟩
  · obtain ⟨r, tr, hrun, hl, hm, hres⟩ :=
      down_scan g nav plr s M fuel hM hpM hlen hs0 (by omega) hf
    refine ⟨r, tr, hrun, hl, hmem tr hm, ?_⟩
    rcases hres with ⟨hr, -⟩ | ⟨k, hk1, hkM, hrk, hracc, -⟩
    · exact ⟨by omega, by omega, Or.inl hr⟩
    · exact ⟨by rcases hM with rfl | rfl <;> omega, by rcases hM with rfl | rfl <;> omega,
        Or.inr ⟨hracc, by rcases hM with rfl | rfl <;> omega⟩⟩

/-- C5: from every start in `[0, 56 + plr]`, for every navigator, flag setting
and 62-entry catalog, `UpSearchRout` and `DownSearchRout` return after
examining at most `57 + plr` candidate indices: `57 + plr` loop iterations of
fuel are enough, and the list of examined candidates has at most `57 + plr`
entries. -/
theorem C5_search_terminates (g : Globals) (nav : MissionNavigator) (plr s : Int) (fuel : Nat)
    (hplr : plr = 0 ∨ plr = 1) (hlen : g.missionData.length = 62)
    (hs0 : 0 ≤ s) (hs1 : s ≤ 56 + plr) (hf : 57 + plr ≤ fuel) :
    (∃ r tr, UpSearchRout fuel g s plr nav = .ok (r, tr) ∧ (tr.length : Int) ≤ 57 + plr) ∧
    (∃ r tr, DownSearchRout fuel g s plr nav = .ok (r, tr) ∧ (tr.length : Int) ≤ 57 + plr) := by
  obtain ⟨⟨r, tr, hrun, hl, -⟩, ⟨r', tr', hrun', hl', -⟩⟩ :=
    search_total g nav plr s fuel hplr hlen hs0 hs1 hf
  exact ⟨⟨r, tr, hrun, hl⟩, ⟨r', tr', hrun', hl'⟩⟩

/-- C5 at a concrete input: player 1, start 57, docking and EVA locked at 1
against a catalog in which no template matches. -/
theorem C5_search_terminates_witness :
    plainGlobals.missionData.length = 62 ∧ (0 : Int) ≤ 57 ∧ (57 : Int) ≤ 56 + 1 ∧
    (∃ r tr, UpSearchRout 58 plainGlobals 57 1 dockingEVANav = .ok (r, tr) ∧
      (tr.length : Int) ≤ 57 + 1) ∧
    (∃ r tr, DownSearchRout 58 plainGlobals 57 1 dockingEVANav = .ok (r, tr) ∧
      (tr.length : Int) ≤ 57 + 1) :=
  ⟨by simp [plainGlobals], by decide, by decide,
    C5_search_terminates plainGlobals dockingEVANav 1 57 58 (Or.inr rfl)
      (by simp [plainGlobals]) (by decide) (by decide) (by decide)⟩

/-- A gated index is not accepted. -/
theorem accepted_not_gated (g : Globals) (nav : MissionNavigator) (i : Int)
    (h : accepted g nav i = true) : flybyGated g i = false := by
  unfold accepted at h
  cases hg : flybyGated g i
  · rfl
  · simp [hg] at h

/-- C6: with the three flyby codes different from 0, from every start in
range, for every navigator: when `MarsFlag` is false neither search returns
`Mission_MarsFlyby`, when `JupiterFlag` is false neither returns
`Mission_JupiterFlyby`, and when `SaturnFlag` is false neither returns
`Mission_SaturnFlyby`. -/
theorem C6_flyby_gating (g : Globals) (nav : MissionNavigator) (plr s : Int) (fuel : Nat)
    (hplr : plr = 0 ∨ plr = 1) (hlen : g.missionData.length = 62)
    (hs0 : 0 ≤ s) (hs1 : s ≤ 56 + plr) (hf : 57 + plr ≤ fuel)
    (hmars : g.Mission_MarsFlyby ≠ 0) (hjup : g.Mission_JupiterFlyby ≠ 0)
    (hsat : g.Mission_SaturnFlyby ≠ 0) :
    (∃ r tr, UpSearchRout fuel g s plr nav = .ok (r, tr) ∧
      (g.MarsFlag = false → r ≠ g.Mission_MarsFlyby) ∧
      (g.JupiterFlag = false → r ≠ g.Mission_JupiterFlyby) ∧
      (g.SaturnFlag = false → r ≠ g.Mission_SaturnFlyby)) ∧
    (∃ r tr, DownSearchRout fuel g s plr nav = .ok (r, tr) ∧
      (g.MarsFlag = false → r ≠ g.Mission_MarsFlyby) ∧
      (g.JupiterFlag = false → r ≠ g.Mission_JupiterFlyby) ∧
      (g.SaturnFlag = false → r ≠ g.Mission_SaturnFlyby)) := by
  have key : ∀ r : Int, (r = 0 ∨ (accepted g nav r = true ∧ r ≠ s)) →
      (g.MarsFlag = false → r ≠ g.Mission_MarsFlyby) ∧
      (g.JupiterFlag = false → r ≠ g.Mission_JupiterFlyby) ∧
      (g.SaturnFlag = false → r ≠ g.Mission_SaturnFlyby) := by
    rintro r (rfl | ⟨hacc, -⟩)
    · exact ⟨fun _ => hmars.symm, fun _ => hjup.symm, fun _ => hsat.symm⟩
    · have hg := accepted_not_gated g nav r hacc
      refine ⟨fun hflag heq => ?_, fun hflag heq => ?_, fun hflag heq => ?_⟩ <;>
        simp [flybyGated, hflag, heq] at hg
  obtain ⟨⟨r, tr, hrun, -, -, -, -, hr⟩, ⟨r', tr', hrun', -, -, -, -, hr'⟩⟩ :=
    search_total g nav plr s fuel hplr hlen hs0 hs1 hf
  exact ⟨⟨r, tr, hrun, key r hr⟩, ⟨r', tr', hrun', key r' hr'⟩⟩

/-- C6 at a concrete input: player 0, start 9, nothing locked, the three flyby
flags false and the flyby codes 10, 12 and 13. -/
theorem C6_flyby_gating_witness :
    noFlybyGlobals.missionData.length = 62 ∧
    noFlybyGlobals.Mission_MarsFlyby ≠ 0 ∧ noFlybyGlobals.Mission_JupiterFlyby ≠ 0 ∧
    noFlybyGlobals.Mission_SaturnFlyby ≠ 0 ∧
    (∃ r tr, UpSearchRout 57 noFlybyGlobals 9 0 freeNav = .ok (r, tr) ∧
      (noFlybyGlobals.MarsFlag = false → r ≠ noFlybyGlobals.Mission_MarsFlyby) ∧
      (noFlybyGlobals.JupiterFlag = false → r ≠ noFlybyGlobals.Mission_JupiterFlyby) ∧
      (noFlybyGlobals.SaturnFlag = false → r ≠ noFlybyGlobals.Mission_SaturnFlyby)) ∧
    (∃ r tr, DownSearchRout 57 noFlybyGlobals 9 0 freeNav = .ok (r, tr) ∧
      (noFlybyGlobals.MarsFlag = false → r ≠ noFlybyGlobals.Mission_MarsFlyby) ∧
      (noFlybyGlobals.JupiterFlag = false → r ≠ noFlybyGlobals.Mission_JupiterFlyby) ∧
      (noFlybyGlobals.SaturnFlag = false → r ≠ noFlybyGlobals.Mission_SaturnFlyby)) :=
  ⟨by simp [noFlybyGlobals, plainGlobals], by decide, by decide, by decide,
    C6_flyby_gating noFlybyGlobals freeNav 0 9 57 (Or.inl rfl)
      (by simp [noFlybyGlobals, plainGlobals]) (by decide) (by decide) (by decide)
      (by decide) (by decide) (by decide)⟩

/-! ## The cursor of a session -/

/-- Inside a catalog of 62 entries the read `missionData[i]` yields a template. -/
theorem missionAt_ok (g : Globals) (i : Int) (hlen : g.missionData.length = 62)
    (h0 : 0 ≤ i) (h1 : i < 62) : ∃ m, missionAt g i = .ok m := by
  unfold missionAt
  have hlt : i.toNat < g.missionData.length := by omega
  simp [h0, List.getElem?_eq_getElem hlt]

/-- In a catalog that follows the data model every template that is read has a
duration class in `0..6`. -/
theorem durationClasses_at (g : Globals) (i : Int) (m : mStr)
    (hd : durationClasses g = true) (hm : missionAt g i = .ok m) : 0 ≤ m.Days ∧ m.Days ≤ 6 := by
  unfold missionAt at hm
  split at hm
  · split at hm
    · rename_i m1 hget
      injection hm with hm
      subst hm
      have hmem : m1 ∈ g.missionData := List.getElem?_mem hget
      have := List.all_eq_true.mp hd m1 hmem
      simpa using this
    · simp at hm
  · simp at hm

/-- The navigator produced by `PianoKey` from the template `m`, when the
duration button is locked or `m.Days` is not negative: locks are kept, a locked
button keeps its value, an unlocked button takes the attribute. -/
theorem PianoKey_eq (g : Globals) (X : Int) (nav : MissionNavigator) (m : mStr)
    (hm : missionAt g X = .ok m) (hd : nav.duration.lock = true ∨ 0 ≤ m.Days) :
    PianoKey g X nav = .ok
      { duration := ⟨if nav.duration.lock then nav.duration.value else m.Days, nav.duration.lock⟩
        docking := ⟨if nav.docking.lock then nav.docking.value else m.Doc, nav.docking.lock⟩
        EVA := ⟨if nav.EVA.lock then nav.EVA.value else m.EVA, nav.EVA.lock⟩
        LM := ⟨if nav.LM.lock then nav.LM.value else m.LM, nav.LM.lock⟩
        joint := ⟨if nav.joint.lock then nav.joint.value else m.Jt, nav.joint.lock⟩ } := by
  rcases nav with ⟨⟨v1, l1⟩, ⟨v2, l2⟩, ⟨v3, l3⟩, ⟨v4, l4⟩, ⟨v5, l5⟩⟩
  simp only [PianoKey, PianoKey.setDocking, PianoKey.setEVA, PianoKey.setLM, PianoKey.setJoint,
    PianoKey.setDuration, hm]
  cases l1
  · have h0 : m.Days ≥ 0 := by simpa using hd
    cases l2 <;> cases l3 <;> cases l4 <;> cases l5 <;> simp [Except.bind, h0]
  · cases l2 <;> cases l3 <;> cases l4 <;> cases l5 <;> rfl

/-- With the duration button unlocked and a negative `Days` in the template,
`PianoKey` stops at its assertion. -/
theorem PianoKey_assert (g : Globals) (X : Int) (nav : MissionNavigator) (m : mStr)
    (hm : missionAt g X = .ok m) (hl : nav.duration.lock = false) (hd : m.Days < 0) :
    PianoKey g X nav = .error .assertFailed := by
  rcases nav with ⟨⟨v1, l1⟩, ⟨v2, l2⟩, ⟨v3, l3⟩, ⟨v4, l4⟩, ⟨v5, l5⟩⟩
  simp only at hl
  subst hl
  have h0 : ¬ m.Days ≥ 0 := by omega
  simp only [PianoKey, PianoKey.setDocking, PianoKey.setEVA, PianoKey.setLM, PianoKey.setJoint,
    PianoKey.setDuration, hm]
  cases l2 <;> cases l3 <;> cases l4 <;> cases l5 <;> simp [Except.bind, h0]

/-- With a template 0 of duration class -1 the assertion of `PianoKey` stops
the call with the duration button unlocked, and with it the start of a pad
session and the reset event; with the duration button locked the call
returns. -/
theorem PianoKey_negative_days :
    PianoKey negativeDaysGlobals 0 freeNav = .error .assertFailed ∧
    FutureInit negativeDaysGlobals 0 true = .error .assertFailed ∧
    FutureStep 57 negativeDaysGlobals ⟨0, true, 5, lockedNav⟩ .reset = .error .assertFailed ∧
    PianoKey negativeDaysGlobals 0 lockedNav = .ok lockedNav :=
  ⟨by rfl, by rfl, by rfl, by rfl⟩

/-- The call of `PianoKey` at an index inside a catalog that follows the data
model returns. -/
theorem PianoKey_ok (g : Globals) (X : Int) (nav : MissionNavigator)
    (hlen : g.missionData.length = 62) (hd : durationClasses g = true)
    (h0 : 0 ≤ X) (h1 : X < 62) :
    ∃ nav1, PianoKey g X nav = .ok nav1 ∧
      (0 ≤ nav.duration.value ∧ nav.duration.value ≤ 6 →
        0 ≤ nav1.duration.value ∧ nav1.duration.value ≤ 6) := by
  obtain ⟨m, hm⟩ := missionAt_ok g X hlen h0 h1
  have hdm := durationClasses_at g X m hd hm
  refine ⟨_, PianoKey_eq g X nav m hm (Or.inr hdm.1), fun hr => ?_⟩
  cases hl : nav.duration.lock
  · simpa using hdm
  · simpa using hr

/-- The redraw after a scroll, in a catalog that follows the data model,
returns and keeps player, joint flag, cursor and the range of the duration
value. -/
theorem redraw_ok (g : Globals) (s : Session) (hlen : g.missionData.length = 62)
    (hd : durationClasses g = true) (h0 : 0 ≤ s.misType) (h1 : s.misType < 62) :
    ∃ s1, redraw g s = .ok s1 ∧ s1.plr = s.plr ∧ s1.JointFlag = s.JointFlag ∧
      s1.misType = s.misType ∧
      (0 ≤ s.nav.duration.value ∧ s.nav.duration.value ≤ 6 →
        0 ≤ s1.nav.duration.value ∧ s1.nav.duration.value ≤ 6) := by
  obtain ⟨m, hm⟩ := missionAt_ok g s.misType hlen h0 h1
  obtain ⟨nav1, hp, hr⟩ := PianoKey_ok g s.misType s.nav hlen hd h0 h1
  refine ⟨{ s with nav := nav1 }, ?_, rfl, rfl, rfl, hr⟩
  simp [redraw, DrawMission, hp, hm, Except.bind]

/-- Narrowing a catalog index to `char` does not change it. -/
theorem toChar_id (x : Int) (h0 : 0 ≤ x) (h1 : x ≤ 57) : toChar x = x := by
  unfold toChar; omega

/-- One forward search statement of the scroll handler: it returns and stores
the value returned by `UpSearchRout` in the cursor. -/
theorem scrollUpPass_ok (fuel : Nat) (g : Globals) (s : Session)
    (hplr : s.plr = 0 ∨ s.plr = 1) (hlen : g.missionData.length = 62)
    (h0 : 0 ≤ s.misType) (h1 : s.misType ≤ 56 + s.plr) (hf : 57 + s.plr ≤ fuel) :
    ∃ r tr, UpSearchRout fuel g s.misType s.plr s.nav = .ok (r, tr) ∧
      scrollUpPass fuel g s = .ok { s with misType := r } ∧ 0 ≤ r ∧ r ≤ 56 + s.plr ∧
      (r = 0 ∨ (accepted g s.nav r = true ∧ r ≠ s.misType)) := by
  obtain ⟨⟨r, tr, hrun, -, -, hr0, hr1, hacc⟩, -⟩ :=
    search_total g s.nav s.plr s.misType fuel hplr hlen h0 h1 hf
  refine ⟨r, tr, hrun, ?_, hr0, hr1, hacc⟩
  simp [scrollUpPass, hrun, toChar_id r hr0 (by omega)]

/-- One backward search statement of the scroll handler: it returns and stores
the value returned by `DownSearchRout` in the cursor. -/
theorem scrollDownPass_ok (fuel : Nat) (g : Globals) (s : Session)
    (hplr : s.plr = 0 ∨ s.plr = 1) (hlen : g.missionData.length = 62)
    (h0 : 0 ≤ s.misType) (h1 : s.misType ≤ 56 + s.plr) (hf : 57 + s.plr ≤ fuel) :
    ∃ r tr, DownSearchRout fuel g s.misType s.plr s.nav = .ok (r, tr) ∧
      scrollDownPass fuel g s = .ok { s with misType := r } ∧ 0 ≤ r ∧ r ≤ 56 + s.plr ∧
      (r = 0 ∨ (accepted g s.nav r = true ∧ r ≠ s.misType)) := by
  obtain ⟨-, ⟨r, tr, hrun, -, -, hr0, hr1, hacc⟩⟩ :=
    search_total g s.nav s.plr s.misType fuel hplr hlen h0 h1 hf
  refine ⟨r, tr, hrun, ?_, hr0, hr1, hacc⟩
  simp [scrollDownPass, hrun, toChar_id r hr0 (by omega)]

/-- The loop of the held forward scroll, in a catalog that follows the data
model, returns and keeps the cursor and the duration value in range. -/
theorem scrollUpHeld_ok (fuel : Nat) (g : Globals) (plr : Int) (hplr : plr = 0 ∨ plr = 1)
    (hlen : g.missionData.length = 62) (hd : durationClasses g = true) (hf : 57 + plr ≤ fuel) :
    ∀ (n : Nat) (s : Session), s.plr = plr → 0 ≤ s.misType → s.misType ≤ 56 + plr →
      0 ≤ s.nav.duration.value → s.nav.duration.value ≤ 6 →
      ∃ s1, scrollUpHeld fuel g n s = .ok s1 ∧ s1.plr = plr ∧ s1.JointFlag = s.JointFlag ∧
        0 ≤ s1.misType ∧ s1.misType ≤ 56 + plr ∧
        0 ≤ s1.nav.duration.value ∧ s1.nav.duration.value ≤ 6 := by
  intro n
  induction n with
  | zero => intro s hp h0 h1 hv0 hv1; exact ⟨s, rfl, hp, rfl, h0, h1, hv0, hv1⟩
  | succ n ih =>
    intro s hp h0 h1 hv0 hv1
    subst hp
    obtain ⟨r, tr, -, hpass, hr0, hr1, -⟩ := scrollUpPass_ok fuel g s hplr hlen h0 h1 hf
    obtain ⟨s2, hre, hp2, hj2, hm2, hv2⟩ :=
      redraw_ok g { s with misType := r } hlen hd hr0 (by simp only []; omega)
    obtain ⟨s3, hrun, hp3, hj3, h30, h31, hv3⟩ := ih s2 hp2 (by rw [hm2]; exact hr0)
      (by rw [hm2]; exact hr1) (hv2 ⟨hv0, hv1⟩).1 (hv2 ⟨hv0, hv1⟩).2
    exact ⟨s3, by simp [scrollUpHeld, hpass, hre, hrun], hp3, by rw [hj3, hj2], h30, h31, hv3⟩

/-- The loop of the held backward scroll, in a catalog that follows the data
model, returns and keeps the cursor and the duration value in range. -/
theorem scrollDownHeld_ok (fuel : Nat) (g : Globals) (plr : Int) (hplr : plr = 0 ∨ plr = 1)
    (hlen : g.missionData.length = 62) (hd : durationClasses g = true) (hf : 57 + plr ≤ fuel) :
    ∀ (n : Nat) (s : Session), s.plr = plr → 0 ≤ s.misType → s.misType ≤ 56 + plr →
      0 ≤ s.nav.duration.value → s.nav.duration.value ≤ 6 →
      ∃ s1, scrollDownHeld fuel g n s = .ok s1 ∧ s1.plr = plr ∧ s1.JointFlag = s.JointFlag ∧
        0 ≤ s1.misType ∧ s1.misType ≤ 56 + plr ∧
        0 ≤ s1.nav.duration.value ∧ s1.nav.duration.value ≤ 6 := by
  intro n
  induction n with
  | zero => intro s hp h0 h1 hv0 hv1; exact ⟨s, rfl, hp, rfl, h0, h1, hv0, hv1⟩
  | succ n ih =>
    intro s hp h0 h1 hv0 hv1
    subst hp
    obtain ⟨r, tr, -, hpass, hr0, hr1, -⟩ := scrollDownPass_ok fuel g s hplr hlen h0 h1 hf
    obtain ⟨s2, hre, hp2, hj2, hm2, hv2⟩ :=
      redraw_ok g { s with misType := r } hlen hd hr0 (by simp only []; omega)
    obtain ⟨s3, hrun, hp3, hj3, h30, h31, hv3⟩ := ih s2 hp2 (by rw [hm2]; exact hr0)
      (by rw [hm2]; exact hr1) (hv2 ⟨hv0, hv1⟩).1 (hv2 ⟨hv0, hv1⟩).2
    exact ⟨s3, by simp [scrollDownHeld, hpass, hre, hrun], hp3, by rw [hj3, hj2], h30, h31, hv3⟩

/-- Every pass of the input loop, in a catalog that follows the data model and
from a session whose duration value lies in `0..6`, returns, keeps the player
and the joint flag, and keeps the cursor inside `[0, 56 + plr]` and the
duration value inside `0..6`. -/
theorem FutureStep_ok (fuel : Nat) (g : Globals) (plr : Int) (hplr : plr = 0 ∨ plr = 1)
    (hlen : g.missionData.length = 62) (hd : durationClasses g = true) (hf : 57 + plr ≤ fuel)
    (s : Session) (e : Event)
    (hp : s.plr = plr) (h0 : 0 ≤ s.misType) (h1 : s.misType ≤ 56 + plr)
    (hv0 : 0 ≤ s.nav.duration.value) (hv1 : s.nav.duration.value ≤ 6) :
    ∃ s1, FutureStep fuel g s e = .ok s1 ∧ s1.plr = plr ∧ s1.JointFlag = s.JointFlag ∧
      0 ≤ s1.misType ∧ s1.misType ≤ 56 + plr ∧
      0 ≤ s1.nav.duration.value ∧ s1.nav.duration.value ≤ 6 := by
  cases e with
  | lockToggle f =>
    cases f <;> simp only [FutureStep] <;> try split
    all_goals exact ⟨_, rfl, hp, rfl, h0, h1, hv0, hv1⟩
  | toggle f =>
    cases f with
    | duration =>
      simp only [FutureStep]
      split
      · split
        · refine ⟨_, rfl, hp, rfl, h0, h1, le_refl 0, ?_⟩
          show (0 : Int) ≤ 6
          decide
        · rename_i hne
          have hne6 : s.nav.duration.value ≠ 6 := by simpa [MaxDur] using hne
          have hmax : (s.nav.duration.value == INT_MAX) = false := by
            simp only [INT_MAX, beq_eq_false_iff_ne, ne_eq]; omega
          simp only [hmax, Bool.false_eq_true, if_false]
          refine ⟨_, rfl, hp, rfl, h0, h1, ?_, ?_⟩
          · show 0 ≤ s.nav.duration.value + 1; omega
          · show s.nav.duration.value + 1 ≤ 6; omega
      · exact ⟨_, rfl, hp, rfl, h0, h1, hv0, hv1⟩
    | docking => simp only [FutureStep]; split <;> exact ⟨_, rfl, hp, rfl, h0, h1, hv0, hv1⟩
    | EVA => simp only [FutureStep]; split <;> exact ⟨_, rfl, hp, rfl, h0, h1, hv0, hv1⟩
    | LM => simp only [FutureStep]; split <;> exact ⟨_, rfl, hp, rfl, h0, h1, hv0, hv1⟩
    | joint => simp only [FutureStep]; split <;> exact ⟨_, rfl, hp, rfl, h0, h1, hv0, hv1⟩
  | reset =>
    obtain ⟨m, hm⟩ := missionAt_ok g 0 hlen (le_refl 0) (by decide)
    have hdm := durationClasses_at g 0 m hd hm
    simp only [FutureStep, DrawMission, PianoKey_eq g 0 _ m hm (Or.inr hdm.1), hm, Except.bind]
    refine ⟨_, rfl, hp, rfl, le_refl 0, ?_, ?_, ?_⟩
    · show (0 : Int) ≤ 56 + plr
      omega
    · cases hj : s.JointFlag <;> simp [NavReset, hj] <;> exact hdm.1
    · cases hj : s.JointFlag <;> simp [NavReset, hj] <;> exact hdm.2
  | scrollUp released held =>
    subst hp
    have hfirst : ∃ s1, (if released then scrollUpPass fuel g s else .ok s) = .ok s1 ∧
        s1.plr = s.plr ∧ s1.JointFlag = s.JointFlag ∧ 0 ≤ s1.misType ∧
        s1.misType ≤ 56 + s.plr ∧ s1.nav = s.nav := by
      cases released
      · exact ⟨s, rfl, rfl, rfl, h0, h1, rfl⟩
      · obtain ⟨r, tr, -, hpass, hr0, hr1, -⟩ := scrollUpPass_ok fuel g s hplr hlen h0 h1 hf
        exact ⟨_, hpass, rfl, rfl, hr0, hr1, rfl⟩
    obtain ⟨s1, hs1, hp1, hj1, h10, h11, hn1⟩ := hfirst
    obtain ⟨s2, hs2, hp2, hj2, h20, h21, hv20, hv21⟩ :=
      scrollUpHeld_ok fuel g s.plr hplr hlen hd hf held s1 hp1 h10 h11
        (by rw [hn1]; exact hv0) (by rw [hn1]; exact hv1)
    obtain ⟨s3, hs3, hp3, hj3, hm3, hv3⟩ := redraw_ok g s2 hlen hd h20 (by omega)
    refine ⟨s3, ?_, by rw [hp3, hp2], by rw [hj3, hj2, hj1], by rw [hm3]; exact h20,
      by rw [hm3]; exact h21, hv3 ⟨hv20, hv21⟩⟩
    simp only [FutureStep, hs1, hs2, hs3]
  | scrollDown released held =>
    subst hp
    have hfirst : ∃ s1, (if released then scrollDownPass fuel g s else .ok s) = .ok s1 ∧
        s1.plr = s.plr ∧ s1.JointFlag = s.JointFlag ∧ 0 ≤ s1.misType ∧
        s1.misType ≤ 56 + s.plr ∧ s1.nav = s.nav := by
      cases released
      · exact ⟨s, rfl, rfl, rfl, h0, h1, rfl⟩
      · obtain ⟨r, tr, -, hpass, hr0, hr1, -⟩ := scrollDownPass_ok fuel g s hplr hlen h0 h1 hf
        exact ⟨_, hpass, rfl, rfl, hr0, hr1, rfl⟩
    obtain ⟨s1, hs1, hp1, hj1, h10, h11, hn1⟩ := hfirst
    obtain ⟨s2, hs2, hp2, hj2, h20, h21, hv20, hv21⟩ :=
      scrollDownHeld_ok fuel g s.plr hplr hlen hd hf held s1 hp1 h10 h11
        (by rw [hn1]; exact hv0) (by rw [hn1]; exact hv1)
    obtain ⟨s3, hs3, hp3, hj3, hm3, hv3⟩ := redraw_ok g s2 hlen hd h20 (by omega)
    refine ⟨s3, ?_, by rw [hp3, hp2], by rw [hj3, hj2, hj1], by rw [hm3]; exact h20,
      by rw [hm3]; exact h21, hv3 ⟨hv20, hv21⟩⟩
    simp only [FutureStep, hs1, hs2, hs3]

/-- Every sequence of passes of the input loop, in a catalog that follows the
data model and from a session whose duration value lies in `0..6`, returns and
keeps the cursor inside `[0, 56 + plr]` and the duration value inside `0..6`. -/
theorem FutureRun_ok (fuel : Nat) (g : Globals) (plr : Int) (hplr : plr = 0 ∨ plr = 1)
    (hlen : g.missionData.length = 62) (hd : durationClasses g = true) (hf : 57 + plr ≤ fuel) :
    ∀ (es : List Event) (s : Session), s.plr = plr → 0 ≤ s.misType → s.misType ≤ 56 + plr →
      0 ≤ s.nav.duration.value → s.nav.duration.value ≤ 6 →
      ∃ s1, FutureRun fuel g s es = .ok s1 ∧ s1.plr = plr ∧ s1.JointFlag = s.JointFlag ∧
        0 ≤ s1.misType ∧ s1.misType ≤ 56 + plr ∧
        0 ≤ s1.nav.duration.value ∧ s1.nav.duration.value ≤ 6 := by
  intro es
  induction es with
  | nil => intro s hp h0 h1 hv0 hv1; exact ⟨s, rfl, hp, rfl, h0, h1, hv0, hv1⟩
  | cons e es ih =>
    intro s hp h0 h1 hv0 hv1
    obtain ⟨s1, hs1, hp1, hj1, h10, h11, hv10, hv11⟩ :=
      FutureStep_ok fuel g plr hplr hlen hd hf s e hp h0 h1 hv0 hv1
    obtain ⟨s2, hs2, hp2, hj2, h20, h21, hv2⟩ := ih s1 hp1 h10 h11 hv10 hv11
    exact ⟨s2, by simp only [FutureRun, hs1, hs2], hp2, by rw [hj2, hj1], h20, h21, hv2⟩

/-- Every sequence of assignments to the cursor, each a search result or the
constant 0, returns and keeps the cursor inside `[0, 56 + plr]`. -/
theorem cursorRun_ok (fuel : Nat) (g : Globals) (plr : Int) (hplr : plr = 0 ∨ plr = 1)
    (hlen : g.missionData.length = 62) (hf : 57 + plr ≤ fuel) :
    ∀ (steps : List CursorStep) (c : Int), 0 ≤ c → c ≤ 56 + plr →
      ∃ c1, cursorRun fuel g plr c steps = .ok c1 ∧ 0 ≤ c1 ∧ c1 ≤ 56 + plr := by
  intro steps
  induction steps with
  | nil => intro c h0 h1; exact ⟨c, rfl, h0, h1⟩
  | cons st rest ih =>
    intro c h0 h1
    cases st with
    | searchUp nav =>
      obtain ⟨⟨r, tr, hrun, -, -, hr0, hr1, -⟩, -⟩ :=
        search_total g nav plr c fuel hplr hlen h0 h1 hf
      obtain ⟨c1, hc1, hb⟩ := ih r hr0 hr1
      exact ⟨c1, by simp only [cursorRun, hrun, toChar_id r hr0 (by omega), hc1], hb⟩
    | searchDown nav =>
      obtain ⟨-, ⟨r, tr, hrun, -, -, hr0, hr1, -⟩⟩ :=
        search_total g nav plr c fuel hplr hlen h0 h1 hf
      obtain ⟨c1, hc1, hb⟩ := ih r hr0 hr1
      exact ⟨c1, by simp only [cursorRun, hrun, toChar_id r hr0 (by omega), hc1], hb⟩
    | reset =>
      obtain ⟨c1, hc1, hb⟩ := ih 0 (le_refl 0) (by omega)
      exact ⟨c1, by simp only [cursorRun, hc1], hb⟩

/-- C7: from a start in `[0, 56 + plr]` every candidate index that
`UpSearchRout` or `DownSearchRout` examines (hence every index at which it
reads `missionData`) and the index it returns lie in `[0, 56 + plr]`, inside
the range `[0, 61]` of the catalog; and a cursor that starts in `[0, 56 + plr]`
stays there through every sequence of assignments of the result of a forward
or backward search from the cursor, with whatever navigator, and of resets
to 0. -/
theorem C7_cursor_bound (g : Globals) (nav : MissionNavigator) (plr s : Int) (fuel : Nat)
    (hplr : plr = 0 ∨ plr = 1) (hlen : g.missionData.length = 62)
    (hs0 : 0 ≤ s) (hs1 : s ≤ 56 + plr) (hf : 57 + plr ≤ fuel) :
    (∃ r tr, UpSearchRout fuel g s plr nav = .ok (r, tr) ∧
      (0 ≤ r ∧ r ≤ 56 + plr ∧ r ≤ 61) ∧ ∀ i ∈ tr, 0 ≤ i ∧ i ≤ 56 + plr ∧ i ≤ 61) ∧
    (∃ r tr, DownSearchRout fuel g s plr nav = .ok (r, tr) ∧
      (0 ≤ r ∧ r ≤ 56 + plr ∧ r ≤ 61) ∧ ∀ i ∈ tr, 0 ≤ i ∧ i ≤ 56 + plr ∧ i ≤ 61) ∧
    (∀ steps : List CursorStep,
      ∃ c, cursorRun fuel g plr s steps = .ok c ∧ 0 ≤ c ∧ c ≤ 56 + plr) := by
  obtain ⟨⟨r, tr, hrun, -, hm, hr0, hr1, -⟩, ⟨r', tr', hrun', -, hm', hr0', hr1', -⟩⟩ :=
    search_total g nav plr s fuel hplr hlen hs0 hs1 hf
  refine ⟨⟨r, tr, hrun, ⟨hr0, hr1, by omega⟩, fun i hi => ?_⟩,
    ⟨r', tr', hrun', ⟨hr0', hr1', by omega⟩, fun i hi => ?_⟩, fun steps => ?_⟩
  · have := hm i hi; exact ⟨this.1, this.2, by omega⟩
  · have := hm' i hi; exact ⟨this.1, this.2, by omega⟩
  · exact cursorRun_ok fuel g plr hplr hlen hf steps s hs0 hs1

/-- C7 at a concrete input: player 1, start 57, docking locked at 1, templates
3 and 56 requiring docking. -/
theorem C7_cursor_bound_witness :
    (dockingGlobals [3, 56]).missionData.length = 62 ∧ (0 : Int) ≤ 57 ∧ (57 : Int) ≤ 56 + 1 ∧
    (∃ r tr, UpSearchRout 58 (dockingGlobals [3, 56]) 57 1 dockingNav = .ok (r, tr) ∧
      (0 ≤ r ∧ r ≤ 56 + 1 ∧ r ≤ 61) ∧ ∀ i ∈ tr, 0 ≤ i ∧ i ≤ 56 + 1 ∧ i ≤ 61) ∧
    (∃ r tr, DownSearchRout 58 (dockingGlobals [3, 56]) 57 1 dockingNav = .ok (r, tr) ∧
      (0 ≤ r ∧ r ≤ 56 + 1 ∧ r ≤ 61) ∧ ∀ i ∈ tr, 0 ≤ i ∧ i ≤ 56 + 1 ∧ i ≤ 61) ∧
    (∀ steps : List CursorStep,
      ∃ c, cursorRun 58 (dockingGlobals [3, 56]) 1 57 steps = .ok c ∧ 0 ≤ c ∧ c ≤ 56 + 1) :=
  ⟨by simp [dockingGlobals], by decide, by decide,
    C7_cursor_bound (dockingGlobals [3, 56]) dockingNav 1 57 58 (Or.inr rfl)
      (by simp [dockingGlobals]) (by decide) (by decide) (by decide)⟩

/-! ## Forward search followed by backward search -/

/-- C8, counterexample: player 0, docking locked at 1, exactly the templates 0
and 2 requiring docking, start 1.  Two indices are accepted, both other than
the start; the forward search yields 2 and the backward search from 2 yields 0,
not the start 1. -/
theorem C8_round_trip_fails :
    accepted (dockingGlobals [0, 2]) dockingNav 0 = true ∧
    accepted (dockingGlobals [0, 2]) dockingNav 2 = true ∧
    UpSearchRout 57 (dockingGlobals [0, 2]) 1 0 dockingNav = .ok (2, [2]) ∧
    DownSearchRout 57 (dockingGlobals [0, 2]) 2 0 dockingNav = .ok (0, [1, 0]) ∧
    ¬ ∃ r tr tr1, UpSearchRout 57 (dockingGlobals [0, 2]) 1 0 dockingNav = .ok (r, tr) ∧
        DownSearchRout 57 (dockingGlobals [0, 2]) r 0 dockingNav = .ok (1, tr1) := by
  have hup : UpSearchRout 57 (dockingGlobals [0, 2]) 1 0 dockingNav = .ok (2, [2]) := by rfl
  have hdown : DownSearchRout 57 (dockingGlobals [0, 2]) 2 0 dockingNav = .ok (0, [1, 0]) := by rfl
  refine ⟨by decide, by decide, hup, hdown, ?_⟩
  rintro ⟨r, tr, tr1, h1, h2⟩
  rw [hup] at h1
  injection h1 with h1
  injection h1 with hr _
  subst hr
  rw [hdown] at h2
  injection h2 with h2
  injection h2 with h0 _
  exact absurd h0 (by decide)

/-- C8, amended: when the start `s` is itself accepted, `s` is not `55 + plr`,
and some other index of `[0, 56 + plr]` is accepted, the forward search from
`s` followed by the backward search from its result returns to `s`. -/
theorem C8_round_trip (g : Globals) (nav : MissionNavigator) (plr s : Int) (fuel : Nat)
    (hplr : plr = 0 ∨ plr = 1) (hlen : g.missionData.length = 62)
    (hs0 : 0 ≤ s) (hs1 : s ≤ 56 + plr) (hf : 57 + plr ≤ fuel)
    (hpen : s ≠ 55 + plr) (hself : accepted g nav s = true)
    (hex : ∃ i, 0 ≤ i ∧ i ≤ 56 + plr ∧ i ≠ s ∧ accepted g nav i = true) :
    ∃ r tr tr1, UpSearchRout fuel g s plr nav = .ok (r, tr) ∧
      DownSearchRout fuel g r plr nav = .ok (s, tr1) := by
  have hM : 57 + plr = 57 ∨ 57 + plr = 58 := by omega
  generalize hMdef : 57 + plr = M at hM hf
  have hpM : 56 + plr = M - 1 := by omega
  obtain ⟨i, hi0, hi1, hne, hacc⟩ := hex
  obtain ⟨r, tr, hrun, -, -, hres⟩ :=
    up_scan g nav plr s M fuel hM hpM hlen hs0 (by omega) (by omega) hf
  rcases hres with ⟨-, hall⟩ | ⟨k, hk1, hkM, hrk, hracc, hall⟩
  · obtain ⟨t, ht1, htM, hti⟩ := above_offset M s i hM hs0 (by omega) hi0 (by omega) hne
    have := hall t ht1 htM
    rw [hti, hacc] at this
    exact absurd this (by decide)
  · have hr0 : 0 ≤ r := by rcases hM with rfl | rfl <;> omega
    have hr1 : r < M := by rcases hM with rfl | rfl <;> omega
    obtain ⟨r1, tr1, hrun1, -, -, hres1⟩ := down_scan g nav plr r M fuel hM hpM hlen hr0 hr1 hf
    have hback : (r - k) % M = s := by rcases hM with rfl | rfl <;> omega
    refine ⟨r, tr, tr1, hrun, ?_⟩
    rcases hres1 with ⟨-, hall1⟩ | ⟨k1, hk11, hk1M, hrk1, hracc1, hall1⟩
    · have := hall1 k hk1 hkM
      rw [hback, hself] at this
      exact absurd this (by decide)
    · rcases lt_trichotomy k1 k with hlt | heq | hgt
      · have := hall (k - k1) (by omega) (by omega)
        have hidx : (s + ((k - k1 : Nat) : Int)) % M = r1 := by
          rcases hM with rfl | rfl <;> omega
        rw [hidx, hracc1] at this
        exact absurd this (by decide)
      · subst heq
        rw [hrun1, hrk1, hback]
      · have := hall1 k hk1 hgt
        rw [hback, hself] at this
        exact absurd this (by decide)

/-- C8 (amended) at a concrete input: player 0, start 3, docking locked at 1,
templates 3 and 56 requiring docking. -/
theorem C8_round_trip_witness :
    (dockingGlobals [3, 56]).missionData.length = 62 ∧ (3 : Int) ≠ 55 + 0 ∧
    accepted (dockingGlobals [3, 56]) dockingNav 3 = true ∧
    (∃ i : Int, 0 ≤ i ∧ i ≤ 56 + 0 ∧ i ≠ 3 ∧ accepted (dockingGlobals [3, 56]) dockingNav i = true) ∧
    ∃ r tr tr1, UpSearchRout 57 (dockingGlobals [3, 56]) 3 0 dockingNav = .ok (r, tr) ∧
      DownSearchRout 57 (dockingGlobals [3, 56]) r 0 dockingNav = .ok (3, tr1) :=
  ⟨by simp [dockingGlobals], by decide, by decide, ⟨56, by decide, by decide, by decide, by decide⟩,
    C8_round_trip (dockingGlobals [3, 56]) dockingNav 0 3 57 (Or.inl rfl)
      (by simp [dockingGlobals]) (by decide) (by decide) (by decide) (by decide) (by decide)
      ⟨56, by decide, by decide, by decide, by decide⟩⟩

/-! ## The scroll handlers and the parameter toggles of `Future` -/

/-- C9, counterexample: player 0, cursor 5, docking locked at 1, template 5 the
only one requiring docking.  No index other than the cursor is accepted, and
after the scroll-next event, and after the scroll-previous event, the cursor
is 0, not 5. -/
theorem C9_cursor_reset_on_no_match :
    accepted (dockingGlobals [5]) dockingNav 5 = true ∧
    (∀ i : Nat, i < 57 → i ≠ 5 → accepted (dockingGlobals [5]) dockingNav i = false) ∧
    FutureStep 57 (dockingGlobals [5]) ⟨0, true, 5, dockingNav⟩ (.scrollUp true 0) =
      .ok ⟨0, true, 0, dockingNav⟩ ∧
    FutureStep 57 (dockingGlobals [5]) ⟨0, true, 5, dockingNav⟩ (.scrollDown true 0) =
      .ok ⟨0, true, 0, dockingNav⟩ := by
  refine ⟨by decide, by decide, by rfl, by rfl⟩

/-- Whenever a redraw returns it has kept the player, the joint flag and the
cursor. -/
theorem redraw_cursor (g : Globals) (s s1 : Session) (h : redraw g s = .ok s1) :
    s1.plr = s.plr ∧ s1.JointFlag = s.JointFlag ∧ s1.misType = s.misType := by
  unfold redraw at h
  split at h
  · injection h with h
    subst h
    exact ⟨rfl, rfl, rfl⟩
  · simp at h

/-- A redraw returns when the cursor lies inside the catalog and the duration
button is locked or the template at the cursor has a `Days` that is not
negative. -/
theorem redraw_returns (g : Globals) (s : Session) (hlen : g.missionData.length = 62)
    (h0 : 0 ≤ s.misType) (h1 : s.misType < 62)
    (hd : s.nav.duration.lock = true ∨ ∀ m, missionAt g s.misType = .ok m → 0 ≤ m.Days) :
    ∃ s1, redraw g s = .ok s1 := by
  obtain ⟨m, hm⟩ := missionAt_ok g s.misType hlen h0 h1
  have hd1 : s.nav.duration.lock = true ∨ 0 ≤ m.Days := hd.imp id (fun h => h m hm)
  obtain ⟨nav1, hp⟩ : ∃ nav1, PianoKey g s.misType s.nav = .ok nav1 :=
    ⟨_, PianoKey_eq g s.misType s.nav m hm hd1⟩
  exact ⟨{ s with nav := nav1 }, by simp only [redraw, DrawMission, hp, hm, Except.bind]⟩

/-- C9, amended: the search statement of the scroll-next and scroll-previous
handlers stores in the cursor the value returned by the search, which is 0 or
an accepted index other than the old cursor, and is 0 when no index of
`[0, 56 + plr]` other than the old cursor is accepted.  Whenever the handler
(one search, then the redraw) returns, the cursor is that value; it returns
when the duration button is locked or the template at the new cursor has a
`Days` that is not negative, which the `PianoKey` of the redraw asserts. -/
theorem C9_scroll_cursor (fuel : Nat) (g : Globals) (s : Session)
    (hplr : s.plr = 0 ∨ s.plr = 1) (hlen : g.missionData.length = 62)
    (h0 : 0 ≤ s.misType) (h1 : s.misType ≤ 56 + s.plr) (hf : 57 + s.plr ≤ fuel) :
    (∃ r tr, UpSearchRout fuel g s.misType s.plr s.nav = .ok (r, tr) ∧
      scrollUpPass fuel g s = .ok { s with misType := r } ∧
      (r = 0 ∨ (accepted g s.nav r = true ∧ r ≠ s.misType)) ∧
      ((∀ i : Int, 0 ≤ i → i ≤ 56 + s.plr → i ≠ s.misType → accepted g s.nav i = false) →
        r = 0) ∧
      (∀ s1, FutureStep fuel g s (.scrollUp true 0) = .ok s1 → s1.misType = r) ∧
      ((s.nav.duration.lock = true ∨ ∀ m, missionAt g r = .ok m → 0 ≤ m.Days) →
        ∃ s1, FutureStep fuel g s (.scrollUp true 0) = .ok s1 ∧ s1.misType = r)) ∧
    (∃ r tr, DownSearchRout fuel g s.misType s.plr s.nav = .ok (r, tr) ∧
      scrollDownPass fuel g s = .ok { s with misType := r } ∧
      (r = 0 ∨ (accepted g s.nav r = true ∧ r ≠ s.misType)) ∧
      ((∀ i : Int, 0 ≤ i → i ≤ 56 + s.plr → i ≠ s.misType → accepted g s.nav i = false) →
        r = 0) ∧
      (∀ s1, FutureStep fuel g s (.scrollDown true 0) = .ok s1 → s1.misType = r) ∧
      ((s.nav.duration.lock = true ∨ ∀ m, missionAt g r = .ok m → 0 ≤ m.Days) →
        ∃ s1, FutureStep fuel g s (.scrollDown true 0) = .ok s1 ∧ s1.misType = r)) := by
  have key : ∀ r : Int, (r = 0 ∨ (accepted g s.nav r = true ∧ r ≠ s.misType)) → 0 ≤ r →
      r ≤ 56 + s.plr →
      (∀ i : Int, 0 ≤ i → i ≤ 56 + s.plr → i ≠ s.misType → accepted g s.nav i = false) →
      r = 0 := by
    intro r hacc hr0 hr1 hA
    rcases hacc with hr | ⟨hacc, hne⟩
    · exact hr
    · have := hA r hr0 hr1 hne
      rw [hacc] at this; exact absurd this (by decide)
  refine ⟨?_, ?_⟩
  · obtain ⟨r, tr, hrun, hpass, hr0, hr1, hacc⟩ := scrollUpPass_ok fuel g s hplr hlen h0 h1 hf
    have hstep : FutureStep fuel g s (.scrollUp true 0) = redraw g { s with misType := r } := by
      simp [FutureStep, hpass, scrollUpHeld]
    refine ⟨r, tr, hrun, hpass, hacc, key r hacc hr0 hr1, fun s1 hs1 => ?_, fun hd => ?_⟩
    · rw [hstep] at hs1
      exact (redraw_cursor g _ s1 hs1).2.2
    · obtain ⟨s1, hre⟩ := redraw_returns g { s with misType := r } hlen hr0
        (by show r < 62; omega) hd
      exact ⟨s1, by rw [hstep]; exact hre, (redraw_cursor g _ s1 hre).2.2⟩
  · obtain ⟨r, tr, hrun, hpass, hr0, hr1, hacc⟩ := scrollDownPass_ok fuel g s hplr hlen h0 h1 hf
    have hstep : FutureStep fuel g s (.scrollDown true 0) = redraw g { s with misType := r } := by
      simp [FutureStep, hpass, scrollDownHeld]
    refine ⟨r, tr, hrun, hpass, hacc, key r hacc hr0 hr1, fun s1 hs1 => ?_, fun hd => ?_⟩
    · rw [hstep] at hs1
      exact (redraw_cursor g _ s1 hs1).2.2
    · obtain ⟨s1, hre⟩ := redraw_returns g { s with misType := r } hlen hr0
        (by show r < 62; omega) hd
      exact ⟨s1, by rw [hstep]; exact hre, (redraw_cursor g _ s1 hre).2.2⟩

/-- C9 (amended) at a concrete input: player 0, cursor 3, docking locked at 1,
templates 3 and 56 requiring docking; the forward handler moves the cursor
to 56. -/
theorem C9_scroll_cursor_witness :
    (dockingGlobals [3, 56]).missionData.length = 62 ∧
    ∃ r tr, UpSearchRout 57 (dockingGlobals [3, 56]) 3 0 dockingNav = .ok (r, tr) ∧
      scrollUpPass 57 (dockingGlobals [3, 56]) ⟨0, true, 3, dockingNav⟩ =
        .ok ⟨0, true, r, dockingNav⟩ ∧
      (r = 0 ∨ (accepted (dockingGlobals [3, 56]) dockingNav r = true ∧ r ≠ 3)) ∧
      ((∀ i : Int, 0 ≤ i → i ≤ 56 + 0 → i ≠ 3 →
          accepted (dockingGlobals [3, 56]) dockingNav i = false) → r = 0) ∧
      (∀ s1, FutureStep 57 (dockingGlobals [3, 56]) ⟨0, true, 3, dockingNav⟩
          (.scrollUp true 0) = .ok s1 → s1.misType = r) ∧
      (((dockingNav.duration.lock = true) ∨
          ∀ m, missionAt (dockingGlobals [3, 56]) r = .ok m → 0 ≤ m.Days) →
        ∃ s1, FutureStep 57 (dockingGlobals [3, 56]) ⟨0, true, 3, dockingNav⟩
          (.scrollUp true 0) = .ok s1 ∧ s1.misType = r) :=
  ⟨by simp [dockingGlobals],
    (C9_scroll_cursor 57 (dockingGlobals [3, 56]) ⟨0, true, 3, dockingNav⟩ (Or.inl rfl)
      (by simp [dockingGlobals]) (by decide) (by decide) (by decide)).1⟩

/-- C10: for each of the five fields, when the button of that field is locked
the toggle event of that field leaves the session, and so the whole navigator
(five values and five lock flags), unchanged. -/
theorem C10_toggle_locked_noop (fuel : Nat) (g : Globals) (s : Session) (f : Field)
    (h : (s.nav.button f).lock = true) :
    FutureStep fuel g s (.toggle f) = .ok s := by
  cases f <;> simp only [MissionNavigator.button] at h <;> simp [FutureStep, h]

/-- C10 at a concrete input: the docking toggle with docking locked at 1. -/
theorem C10_toggle_locked_noop_witness :
    (dockingNav.button .docking).lock = true ∧
    FutureStep 57 plainGlobals ⟨0, true, 0, dockingNav⟩ (.toggle .docking) =
      .ok ⟨0, true, 0, dockingNav⟩ :=
  ⟨rfl, C10_toggle_locked_noop 57 plainGlobals ⟨0, true, 0, dockingNav⟩ .docking rfl⟩


/-! ## Parameter toggles, reset and lock toggles -/

/-- Replacing the value of one button keeps every lock flag and the value of
every other button. -/
theorem withValue_frame (nav : MissionNavigator) (f f1 : Field) (v : Int) :
    ((nav.withValue f v).button f1).lock = (nav.button f1).lock ∧
    (f1 ≠ f → ((nav.withValue f v).button f1).value = (nav.button f1).value) ∧
    ((nav.withValue f v).button f).value = v := by
  cases f <;> cases f1 <;> simp [MissionNavigator.withValue, MissionNavigator.button]

/-- Replacing the lock flag of one button keeps every value and the lock flag
of every other button. -/
theorem withLock_frame (nav : MissionNavigator) (f f1 : Field) (b : Bool) :
    ((nav.withLock f b).button f1).value = (nav.button f1).value ∧
    (f1 ≠ f → ((nav.withLock f b).button f1).lock = (nav.button f1).lock) ∧
    ((nav.withLock f b).button f).lock = b := by
  cases f <;> cases f1 <;> simp [MissionNavigator.withLock, MissionNavigator.button]

/-- C11: the toggle event of an unlocked field.  For duration with value `v` in
`0..6` the value becomes `(v + 1) mod 7` and seven toggles restore the session;
for docking, EVA, LM, and joint when `JointFlag` is true, with value `v` in
`{0, 1}` the value becomes `1 - v` and two toggles restore the session.  The
new session differs from the old one only in that value: no lock flag and no
other value changes. -/
theorem C11_toggle_step (fuel : Nat) (g : Globals) (s : Session) :
    (s.nav.duration.lock = false → 0 ≤ s.nav.duration.value → s.nav.duration.value ≤ 6 →
      FutureStep fuel g s (.toggle .duration) =
        .ok { s with nav := s.nav.withValue .duration ((s.nav.duration.value + 1) % 7) } ∧
      FutureRun fuel g s (List.replicate 7 (.toggle .duration)) = .ok s) ∧
    (∀ f : Field, f ≠ .duration → (f = .joint → s.JointFlag = true) →
      (s.nav.button f).lock = false →
      ((s.nav.button f).value = 0 ∨ (s.nav.button f).value = 1) →
      FutureStep fuel g s (.toggle f) =
        .ok { s with nav := s.nav.withValue f (1 - (s.nav.button f).value) } ∧
      FutureRun fuel g s [.toggle f, .toggle f] = .ok s) ∧
    (∀ (f f1 : Field) (v : Int),
      ((s.nav.withValue f v).button f1).lock = (s.nav.button f1).lock ∧
      (f1 ≠ f → ((s.nav.withValue f v).button f1).value = (s.nav.button f1).value)) := by
  rcases s with ⟨plr, jf, mt, ⟨⟨v1, l1⟩, ⟨v2, l2⟩, ⟨v3, l3⟩, ⟨v4, l4⟩, ⟨v5, l5⟩⟩⟩
  refine ⟨?_, ?_, fun f f1 v => ⟨(withValue_frame _ f f1 v).1, (withValue_frame _ f f1 v).2.1⟩⟩
  · intro hl h0 h6
    simp only at hl h0 h6
    subst hl
    have hv : v1 = 0 ∨ v1 = 1 ∨ v1 = 2 ∨ v1 = 3 ∨ v1 = 4 ∨ v1 = 5 ∨ v1 = 6 := by omega
    rcases hv with rfl | rfl | rfl | rfl | rfl | rfl | rfl <;> exact ⟨rfl, rfl⟩
  · intro f hf hj hl hv
    cases f with
    | duration => exact absurd rfl hf
    | docking =>
      simp only [MissionNavigator.button] at hl hv
      subst hl
      rcases hv with rfl | rfl <;> exact ⟨rfl, rfl⟩
    | EVA =>
      simp only [MissionNavigator.button] at hl hv
      subst hl
      rcases hv with rfl | rfl <;> exact ⟨rfl, rfl⟩
    | LM =>
      simp only [MissionNavigator.button] at hl hv
      subst hl
      rcases hv with rfl | rfl <;> exact ⟨rfl, rfl⟩
    | joint =>
      simp only [MissionNavigator.button] at hl hv
      have hjf : jf = true := hj rfl
      subst hl hjf
      rcases hv with rfl | rfl <;> exact ⟨rfl, rfl⟩

/-- C11 at a concrete input: duration unlocked at 6 and EVA unlocked at 0. -/
theorem C11_toggle_step_witness :
    FutureStep 57 plainGlobals ⟨0, true, 3, { freeNav with duration := ⟨6, false⟩ }⟩
        (.toggle .duration) = .ok ⟨0, true, 3, freeNav⟩ ∧
    FutureStep 57 plainGlobals ⟨0, true, 3, freeNav⟩ (.toggle .EVA) =
      .ok ⟨0, true, 3, { freeNav with EVA := ⟨1, false⟩ }⟩ ∧
    FutureRun 57 plainGlobals ⟨0, true, 3, freeNav⟩ [.toggle .EVA, .toggle .EVA] =
      .ok ⟨0, true, 3, freeNav⟩ :=
  ⟨((C11_toggle_step 57 plainGlobals ⟨0, true, 3, { freeNav with duration := ⟨6, false⟩ }⟩).1
      rfl (by decide) (by decide)).1,
    ((C11_toggle_step 57 plainGlobals ⟨0, true, 3, freeNav⟩).2.1 .EVA (by decide)
      (fun h => absurd h (by decide)) rfl (Or.inl rfl)).1,
    ((C11_toggle_step 57 plainGlobals ⟨0, true, 3, freeNav⟩).2.1 .EVA (by decide)
      (fun h => absurd h (by decide)) rfl (Or.inl rfl)).2⟩

/-- C12: for every navigator `NavReset` yields the navigator with the five
values 0 and the five lock flags false; so also for a navigator with all five
buttons locked. -/
theorem C12_NavReset (nav : MissionNavigator) :
    NavReset nav = ⟨⟨0, false⟩, ⟨0, false⟩, ⟨0, false⟩, ⟨0, false⟩, ⟨0, false⟩⟩ ∧
    (∀ f : Field, ((NavReset nav).button f).value = 0 ∧ ((NavReset nav).button f).lock = false) ∧
    NavReset lockedNav = freeNav := by
  refine ⟨rfl, fun f => ?_, rfl⟩
  cases f <;> exact ⟨rfl, rfl⟩

/-- C13: the lock-toggle event of duration, docking, EVA or LM, and of joint
when `JointFlag` is true, negates the lock flag of that field; the new session
differs from the old one only in that flag: the five values and the other four
lock flags are unchanged. -/
theorem C13_lock_toggle (fuel : Nat) (g : Globals) (s : Session) (f : Field)
    (hj : f = .joint → s.JointFlag = true) :
    FutureStep fuel g s (.lockToggle f) =
      .ok { s with nav := s.nav.withLock f (!(s.nav.button f).lock) } ∧
    (∀ f1 : Field,
      ((s.nav.withLock f (!(s.nav.button f).lock)).button f1).value = (s.nav.button f1).value ∧
      (f1 ≠ f →
        ((s.nav.withLock f (!(s.nav.button f).lock)).button f1).lock = (s.nav.button f1).lock)) := by
  refine ⟨?_, fun f1 => ⟨(withLock_frame _ f f1 _).1, (withLock_frame _ f f1 _).2.1⟩⟩
  cases f with
  | joint => simp [FutureStep, hj rfl, MissionNavigator.withLock, MissionNavigator.button]
  | duration => rfl
  | docking => rfl
  | EVA => rfl
  | LM => rfl

/-- C13 at a concrete input: the joint lock toggle with joint missions
available and docking locked at 1; the joint value 0 is kept. -/
theorem C13_lock_toggle_witness :
    FutureStep 57 plainGlobals ⟨0, true, 0, dockingNav⟩ (.lockToggle .joint) =
      .ok ⟨0, true, 0, { dockingNav with joint := ⟨0, true⟩ }⟩ :=
  (C13_lock_toggle 57 plainGlobals ⟨0, true, 0, dockingNav⟩ .joint (fun _ => rfl)).1

/-! ## The update of the navigator by `PianoKey` -/

/-- Whenever `PianoKey` returns, the duration button is locked or the `Days` of
the template is not negative. -/
theorem PianoKey_returned (g : Globals) (X : Int) (nav nav1 : MissionNavigator) (m : mStr)
    (hm : missionAt g X = .ok m) (h : PianoKey g X nav = .ok nav1) :
    nav.duration.lock = true ∨ 0 ≤ m.Days := by
  by_cases hd : 0 ≤ m.Days
  · exact Or.inr hd
  · cases hl : nav.duration.lock
    · rw [PianoKey_assert g X nav m hm hl (by omega)] at h
      simp at h
    · exact Or.inl rfl

/-- Whenever `PianoKey` returns, every lock flag is kept and every locked
button keeps its value. -/
theorem PianoKey_frame (g : Globals) (X : Int) (nav nav1 : MissionNavigator)
    (h : PianoKey g X nav = .ok nav1) (f : Field) :
    (nav1.button f).lock = (nav.button f).lock ∧
    ((nav.button f).lock = true → (nav1.button f).value = (nav.button f).value) := by
  cases hm : missionAt g X with
  | ok m =>
    rw [PianoKey_eq g X nav m hm (PianoKey_returned g X nav nav1 m hm h)] at h
    injection h with h
    subst h
    cases f <;> simp [MissionNavigator.button] <;> intro hl <;> simp [hl]
  | error e =>
    rcases nav with ⟨⟨v1, l1⟩, ⟨v2, l2⟩, ⟨v3, l3⟩, ⟨v4, l4⟩, ⟨v5, l5⟩⟩
    simp only [PianoKey, PianoKey.setDocking, PianoKey.setEVA, PianoKey.setLM, PianoKey.setJoint,
      PianoKey.setDuration, hm] at h
    cases l1 <;> cases l2 <;> cases l3 <;> cases l4 <;> cases l5 <;>
      simp [Except.bind] at h
    subst h
    exact ⟨rfl, fun _ => rfl⟩

/-- C20: for every index `X` of a 62-entry catalog and every navigator,
whenever `PianoKey(X, nav)` returns, the navigator it leaves has the five lock
flags of `nav`, every locked button has the value it has in `nav`, and every
unlocked button has the attribute of `missionData[X]` for its field (`Doc` for
docking, `EVA`, `LM`, `Jt` for joint, `Days` for duration).  It returns when
the duration button is locked or `missionData[X].Days` is not negative, as its
assertion requires, and in no other case. -/
theorem C20_PianoKey_frame (g : Globals) (X : Int) (nav : MissionNavigator)
    (hlen : g.missionData.length = 62) (h0 : 0 ≤ X) (h1 : X ≤ 61) :
    ∃ m, missionAt g X = .ok m ∧
      ((∃ nav1, PianoKey g X nav = .ok nav1) ↔ (nav.duration.lock = true ∨ 0 ≤ m.Days)) ∧
      ∀ nav1, PianoKey g X nav = .ok nav1 →
        ∀ f : Field, (nav1.button f).lock = (nav.button f).lock ∧
          ((nav.button f).lock = true → (nav1.button f).value = (nav.button f).value) ∧
          ((nav.button f).lock = false → (nav1.button f).value = m.attribute f) := by
  obtain ⟨m, hm⟩ := missionAt_ok g X hlen h0 (by omega)
  refine ⟨m, hm, ⟨fun ⟨nav1, h⟩ => PianoKey_returned g X nav nav1 m hm h,
    fun hd => ⟨_, PianoKey_eq g X nav m hm hd⟩⟩, fun nav1 h f => ?_⟩
  rw [PianoKey_eq g X nav m hm (PianoKey_returned g X nav nav1 m hm h)] at h
  injection h with h
  subst h
  cases f <;> simp [MissionNavigator.button, mStr.attribute] <;>
    constructor <;> intro hl <;> simp [hl]

/-- C20 at a concrete input: index 7 of a catalog of joint missions, docking
locked at 1 and the other buttons unlocked; `PianoKey` returns there. -/
theorem C20_PianoKey_frame_witness :
    jointGlobals.missionData.length = 62 ∧
    (∃ nav1, PianoKey jointGlobals 7 dockingNav = .ok nav1) ∧
    ∃ m, missionAt jointGlobals 7 = .ok m ∧
      ((∃ nav1, PianoKey jointGlobals 7 dockingNav = .ok nav1) ↔
        (dockingNav.duration.lock = true ∨ 0 ≤ m.Days)) ∧
      ∀ nav1, PianoKey jointGlobals 7 dockingNav = .ok nav1 →
        ∀ f : Field, (nav1.button f).lock = (dockingNav.button f).lock ∧
          ((dockingNav.button f).lock = true →
            (nav1.button f).value = (dockingNav.button f).value) ∧
          ((dockingNav.button f).lock = false → (nav1.button f).value = m.attribute f) :=
  ⟨by simp [jointGlobals], ⟨_, rfl⟩,
    C20_PianoKey_frame jointGlobals 7 dockingNav (by simp [jointGlobals]) (by decide) (by decide)⟩

/-! ## The joint button when joint missions are unavailable -/

/-- Whenever `DrawMission` returns, its navigator is the one `PianoKey` made. -/
theorem DrawMission_ok (g : Globals) (X : Int) (nav nav1 : MissionNavigator)
    (h : DrawMission g X nav = .ok nav1) : PianoKey g X nav = .ok nav1 := by
  unfold DrawMission at h
  cases hp : PianoKey g X nav with
  | error e => rw [hp] at h; simp [Except.bind] at h
  | ok nav2 =>
    rw [hp] at h
    cases hm : missionAt g X with
    | error e => rw [hm] at h; simp [Except.bind] at h
    | ok m =>
      rw [hm] at h
      simp only [Except.bind] at h
      rw [h]

/-- A redraw keeps the joint flag, the cursor, and a locked joint button. -/
theorem redraw_joint (g : Globals) (s s1 : Session) (h : redraw g s = .ok s1)
    (hl : s.nav.joint.lock = true) :
    s1.JointFlag = s.JointFlag ∧ s1.nav.joint = s.nav.joint := by
  unfold redraw at h
  cases hd : DrawMission g s.misType s.nav with
  | error e => rw [hd] at h; simp at h
  | ok nav1 =>
    rw [hd] at h
    simp only at h
    injection h with h
    subst h
    have hf := PianoKey_frame g s.misType s.nav nav1 (DrawMission_ok g _ _ _ hd) .joint
    simp only [MissionNavigator.button] at hf
    refine ⟨rfl, ?_⟩
    show nav1.joint = s.nav.joint
    rcases hn : nav1.joint with ⟨v, l⟩
    rcases hs : s.nav.joint with ⟨v0, l0⟩
    rw [hn, hs] at hf
    rw [hs] at hl
    simp only at hf hl
    rw [hf.1, hf.2 hl]

/-- A forward search statement changes only the cursor. -/
theorem scrollUpPass_frame (fuel : Nat) (g : Globals) (s s1 : Session)
    (h : scrollUpPass fuel g s = .ok s1) : s1.JointFlag = s.JointFlag ∧ s1.nav = s.nav := by
  unfold scrollUpPass at h
  cases hr : UpSearchRout fuel g s.misType s.plr s.nav with
  | error e => rw [hr] at h; simp at h
  | ok p =>
    rw [hr] at h
    simp only at h
    injection h with h
    subst h
    exact ⟨rfl, rfl⟩

/-- A backward search statement changes only the cursor. -/
theorem scrollDownPass_frame (fuel : Nat) (g : Globals) (s s1 : Session)
    (h : scrollDownPass fuel g s = .ok s1) : s1.JointFlag = s.JointFlag ∧ s1.nav = s.nav := by
  unfold scrollDownPass at h
  cases hr : DownSearchRout fuel g s.misType s.plr s.nav with
  | error e => rw [hr] at h; simp at h
  | ok p =>
    rw [hr] at h
    simp only at h
    injection h with h
    subst h
    exact ⟨rfl, rfl⟩

/-- The loop of the held forward scroll keeps a locked joint button. -/
theorem scrollUpHeld_joint (fuel : Nat) (g : Globals) :
    ∀ (n : Nat) (s s1 : Session), scrollUpHeld fuel g n s = .ok s1 →
      s.nav.joint.lock = true → s1.JointFlag = s.JointFlag ∧ s1.nav.joint = s.nav.joint := by
  intro n
  induction n with
  | zero =>
    intro s s1 h _
    simp only [scrollUpHeld] at h
    injection h with h
    subst h
    exact ⟨rfl, rfl⟩
  | succ n ih =>
    intro s s1 h hl
    simp only [scrollUpHeld] at h
    cases hp : scrollUpPass fuel g s with
    | error e => rw [hp] at h; simp at h
    | ok s2 =>
      rw [hp] at h
      simp only at h
      obtain ⟨hj2, hn2⟩ := scrollUpPass_frame fuel g s s2 hp
      cases hr : redraw g s2 with
      | error e => rw [hr] at h; simp at h
      | ok s3 =>
        rw [hr] at h
        simp only at h
        obtain ⟨hj3, hn3⟩ := redraw_joint g s2 s3 hr (by rw [hn2]; exact hl)
        obtain ⟨hj4, hn4⟩ := ih s3 s1 h (by rw [hn3, hn2]; exact hl)
        exact ⟨by rw [hj4, hj3, hj2], by rw [hn4, hn3, hn2]⟩

/-- The loop of the held backward scroll keeps a locked joint button. -/
theorem scrollDownHeld_joint (fuel : Nat) (g : Globals) :
    ∀ (n : Nat) (s s1 : Session), scrollDownHeld fuel g n s = .ok s1 →
      s.nav.joint.lock = true → s1.JointFlag = s.JointFlag ∧ s1.nav.joint = s.nav.joint := by
  intro n
  induction n with
  | zero =>
    intro s s1 h _
    simp only [scrollDownHeld] at h
    injection h with h
    subst h
    exact ⟨rfl, rfl⟩
  | succ n ih =>
    intro s s1 h hl
    simp only [scrollDownHeld] at h
    cases hp : scrollDownPass fuel g s with
    | error e => rw [hp] at h; simp at h
    | ok s2 =>
      rw [hp] at h
      simp only at h
      obtain ⟨hj2, hn2⟩ := scrollDownPass_frame fuel g s s2 hp
      cases hr : redraw g s2 with
      | error e => rw [hr] at h; simp at h
      | ok s3 =>
        rw [hr] at h
        simp only at h
        obtain ⟨hj3, hn3⟩ := redraw_joint g s2 s3 hr (by rw [hn2]; exact hl)
        obtain ⟨hj4, hn4⟩ := ih s3 s1 h (by rw [hn3, hn2]; exact hl)
        exact ⟨by rw [hj4, hj3, hj2], by rw [hn4, hn3, hn2]⟩

/-- Whenever `PianoKey` returns, a locked joint button is unchanged. -/
theorem PianoKey_joint (g : Globals) (X : Int) (nav nav1 : MissionNavigator)
    (h : PianoKey g X nav = .ok nav1) (hl : nav.joint.lock = true) : nav1.joint = nav.joint := by
  have hf := PianoKey_frame g X nav nav1 h .joint
  simp only [MissionNavigator.button] at hf
  rcases hn : nav1.joint with ⟨v, l⟩
  rcases hs : nav.joint with ⟨v0, l0⟩
  rw [hn, hs] at hf
  rw [hs] at hl
  simp only at hf hl
  rw [hf.1, hf.2 hl]

/-- Every pass of the input loop that returns keeps the joint flag, and keeps
the joint button locked at 0 when the joint flag is false. -/
theorem FutureStep_joint (fuel : Nat) (g : Globals) (s s1 : Session) (e : Event)
    (h : FutureStep fuel g s e = .ok s1) (hj : s.JointFlag = false)
    (hn : s.nav.joint = ⟨0, true⟩) :
    s1.JointFlag = false ∧ s1.nav.joint = ⟨0, true⟩ := by
  have hl : s.nav.joint.lock = true := by rw [hn]
  cases e with
  | lockToggle f =>
    cases f <;> simp only [FutureStep, hj] at h <;> injection h with h <;> subst h <;>
      first | exact ⟨hj, hn⟩ | exact ⟨rfl, hn⟩
  | toggle f =>
    cases f with
    | joint =>
      have hc : (s.nav.joint.lock == false && s.JointFlag == true) = false := by rw [hl]; rfl
      simp only [FutureStep, hc, Bool.false_eq_true, if_false] at h
      injection h with h
      subst h
      exact ⟨hj, hn⟩
    | duration =>
      simp only [FutureStep] at h
      split at h
      · split at h
        · injection h with h; subst h; exact ⟨hj, hn⟩
        · split at h
          · simp at h
          · injection h with h; subst h; exact ⟨hj, hn⟩
      · injection h with h; subst h; exact ⟨hj, hn⟩
    | docking =>
      simp only [FutureStep] at h
      split at h <;> injection h with h <;> subst h <;> exact ⟨hj, hn⟩
    | EVA =>
      simp only [FutureStep] at h
      split at h <;> injection h with h <;> subst h <;> exact ⟨hj, hn⟩
    | LM =>
      simp only [FutureStep] at h
      split at h <;> injection h with h <;> subst h <;> exact ⟨hj, hn⟩
  | reset =>
    simp only [FutureStep, hj] at h
    split at h
    · rename_i nav1 hd
      injection h with h
      subst h
      have := PianoKey_joint g 0 _ nav1 (DrawMission_ok g _ _ _ hd) rfl
      exact ⟨rfl, this⟩
    · simp at h
  | scrollUp released held =>
    simp only [FutureStep] at h
    split at h
    · simp at h
    · rename_i s2 h2
      have h2f : s2.JointFlag = s.JointFlag ∧ s2.nav = s.nav := by
        cases released
        · simp only [Bool.false_eq_true, if_false] at h2
          injection h2 with h2
          subst h2
          exact ⟨rfl, rfl⟩
        · simp only [if_true] at h2
          exact scrollUpPass_frame fuel g s s2 h2
      split at h
      · simp at h
      · rename_i s3 h3
        obtain ⟨hj3, hn3⟩ := scrollUpHeld_joint fuel g held s2 s3 h3 (by rw [h2f.2]; exact hl)
        obtain ⟨hj4, hn4⟩ := redraw_joint g s3 s1 h (by rw [hn3, h2f.2]; exact hl)
        exact ⟨by rw [hj4, hj3, h2f.1, hj], by rw [hn4, hn3, h2f.2, hn]⟩
  | scrollDown released held =>
    simp only [FutureStep] at h
    split at h
    · simp at h
    · rename_i s2 h2
      have h2f : s2.JointFlag = s.JointFlag ∧ s2.nav = s.nav := by
        cases released
        · simp only [Bool.false_eq_true, if_false] at h2
          injection h2 with h2
          subst h2
          exact ⟨rfl, rfl⟩
        · simp only [if_true] at h2
          exact scrollDownPass_frame fuel g s s2 h2
      split at h
      · simp at h
      · rename_i s3 h3
        obtain ⟨hj3, hn3⟩ := scrollDownHeld_joint fuel g held s2 s3 h3 (by rw [h2f.2]; exact hl)
        obtain ⟨hj4, hn4⟩ := redraw_joint g s3 s1 h (by rw [hn3, h2f.2]; exact hl)
        exact ⟨by rw [hj4, hj3, h2f.1, hj], by rw [hn4, hn3, h2f.2, hn]⟩

/-- Every sequence of passes of the input loop that returns keeps the joint
flag, and keeps the joint button locked at 0 when the joint flag is false. -/
theorem FutureRun_joint (fuel : Nat) (g : Globals) :
    ∀ (es : List Event) (s s1 : Session), FutureRun fuel g s es = .ok s1 →
      s.JointFlag = false → s.nav.joint = ⟨0, true⟩ →
      s1.JointFlag = false ∧ s1.nav.joint = ⟨0, true⟩ := by
  intro es
  induction es with
  | nil =>
    intro s s1 h hj hn
    simp only [FutureRun] at h
    injection h with h
    subst h
    exact ⟨hj, hn⟩
  | cons e es ih =>
    intro s s1 h hj hn
    simp only [FutureRun] at h
    split at h
    · simp at h
    · rename_i s2 hstep
      obtain ⟨hj2, hn2⟩ := FutureStep_joint fuel g s s2 e hstep hj hn
      exact ih s2 s1 h hj2 hn2

/-- The session made by the start of a pad session, from the template `m0` at
index 0 of the catalog, when `m0.Days` is not negative. -/
theorem FutureInit_eq (g : Globals) (plr : Int) (jointMissionOK : Bool) (m0 : mStr)
    (hm : missionAt g 0 = .ok m0) (hd : 0 ≤ m0.Days) :
    FutureInit g plr jointMissionOK = .ok
      { plr := plr, JointFlag := jointMissionOK, misType := 0
        nav :=
          { duration := ⟨m0.Days, false⟩, docking := ⟨m0.Doc, false⟩, EVA := ⟨m0.EVA, false⟩
            LM := ⟨m0.LM, false⟩
            joint := if jointMissionOK then ⟨m0.Jt, false⟩ else ⟨0, true⟩ } } := by
  cases jointMissionOK <;>
    simp [FutureInit, DrawMission, PianoKey_eq g 0 _ m0 hm (Or.inr hd), hm, Except.bind, NavReset]

/-- Whenever the start of a pad session without joint missions returns, the
joint flag is false, the joint button is locked at 0 and the cursor is 0. -/
theorem FutureInit_joint (g : Globals) (plr : Int) (s0 : Session)
    (h : FutureInit g plr false = .ok s0) :
    s0.JointFlag = false ∧ s0.nav.joint = ⟨0, true⟩ ∧ s0.plr = plr ∧ s0.misType = 0 := by
  simp only [FutureInit] at h
  split at h
  · rename_i nav1 hd
    injection h with h
    subst h
    exact ⟨rfl, PianoKey_joint g 0 _ nav1 (DrawMission_ok g _ _ _ hd) rfl, rfl, rfl⟩
  · simp at h

/-- C14: in a session in which `JointMissionOK(plr, pad)` is false, whenever
the start of the session and a sequence of events (toggles, lock toggles,
reset, scrolls with their redraw; the empty sequence for the state after the
start) have run, the joint button has value 0 and is locked, and the joint
toggle and the joint lock toggle leave the session unchanged.  With a 62-entry
catalog that follows the data model (`Days` in `0..6`) the start and every
sequence of events do run to their end. -/
theorem C14_joint_unavailable (fuel : Nat) (g : Globals) (plr : Int) :
    (∀ (s0 s1 : Session) (es : List Event), FutureInit g plr false = .ok s0 →
      FutureRun fuel g s0 es = .ok s1 →
      s1.nav.joint = ⟨0, true⟩ ∧
      FutureStep fuel g s1 (.toggle .joint) = .ok s1 ∧
      FutureStep fuel g s1 (.lockToggle .joint) = .ok s1) ∧
    ((plr = 0 ∨ plr = 1) → g.missionData.length = 62 → 57 + plr ≤ fuel →
      durationClasses g = true →
      ∃ s0, FutureInit g plr false = .ok s0 ∧
        ∀ es : List Event, ∃ s1, FutureRun fuel g s0 es = .ok s1) := by
  refine ⟨fun s0 s1 es hinit hrun => ?_, fun hplr hlen hf hd => ?_⟩
  · obtain ⟨hj0, hn0, -, -⟩ := FutureInit_joint g plr s0 hinit
    obtain ⟨hj1, hn1⟩ := FutureRun_joint fuel g es s0 s1 hrun hj0 hn0
    refine ⟨hn1, ?_, ?_⟩
    · have hl : s1.nav.joint.lock = true := by rw [hn1]
      simp [FutureStep, hl]
    · simp [FutureStep, hj1]
  · obtain ⟨m0, hm⟩ := missionAt_ok g 0 hlen (le_refl 0) (by decide)
    have hdm := durationClasses_at g 0 m0 hd hm
    refine ⟨_, FutureInit_eq g plr false m0 hm hdm.1, fun es => ?_⟩
    obtain ⟨s1, hrun, -⟩ := FutureRun_ok fuel g plr hplr hlen hd hf es
      { plr := plr, JointFlag := false, misType := 0
        nav :=
          { duration := ⟨m0.Days, false⟩, docking := ⟨m0.Doc, false⟩, EVA := ⟨m0.EVA, false⟩
            LM := ⟨m0.LM, false⟩
            joint := if false then ⟨m0.Jt, false⟩ else ⟨0, true⟩ } }
      rfl (le_refl 0) (by show (0 : Int) ≤ 56 + plr; omega) hdm.1 hdm.2
    exact ⟨s1, hrun⟩

/-- C14 at a concrete input: player 1 and a catalog of joint missions; the
session starts, runs a reset, a joint lock toggle and a scroll, and ends with
the joint button locked at 0. -/
theorem C14_joint_unavailable_witness :
    jointGlobals.missionData.length = 62 ∧ durationClasses jointGlobals = true ∧
    (∃ s0, FutureInit jointGlobals 1 false = .ok s0 ∧
      ∀ es : List Event, ∃ s1, FutureRun 58 jointGlobals s0 es = .ok s1) ∧
    ∀ (s0 s1 : Session), FutureInit jointGlobals 1 false = .ok s0 →
      FutureRun 58 jointGlobals s0 [.reset, .lockToggle .joint, .scrollUp true 0] = .ok s1 →
      s1.nav.joint = ⟨0, true⟩ ∧
      FutureStep 58 jointGlobals s1 (.toggle .joint) = .ok s1 ∧
      FutureStep 58 jointGlobals s1 (.lockToggle .joint) = .ok s1 :=
  ⟨by simp [jointGlobals], by decide,
    (C14_joint_unavailable 58 jointGlobals 1).2 (Or.inr rfl) (by simp [jointGlobals])
      (by decide) (by decide),
    fun s0 s1 => (C14_joint_unavailable 58 jointGlobals 1).1 s0 s1 _⟩

/-! ## The reset event -/

/-- C15, counterexample: player 0, joint missions available, template 0 of the
catalog requiring docking.  After the reset event the docking value is 1, not
0: the session is not the one with the freshly reset navigator. -/
theorem C15_reset_copies_entry_zero :
    FutureStep 57 (dockingGlobals [0]) ⟨0, true, 5, lockedNav⟩ .reset =
      .ok ⟨0, true, 0, { freeNav with docking := ⟨1, false⟩ }⟩ ∧
    FutureStep 57 (dockingGlobals [0]) ⟨0, true, 5, lockedNav⟩ .reset ≠
      .ok ⟨0, true, 0, freeNav⟩ := by
  have h : FutureStep 57 (dockingGlobals [0]) ⟨0, true, 5, lockedNav⟩ .reset =
      .ok ⟨0, true, 0, { freeNav with docking := ⟨1, false⟩ }⟩ := by rfl
  refine ⟨h, ?_⟩
  rw [h]
  intro h2
  injection h2 with h2
  exact absurd h2 (by decide)

/-- C15, amended: with a 62-entry catalog whose template 0 has a `Days` that is
not negative, after the reset event the cursor is 0, every lock flag is false
except that joint is locked with value 0 when the joint flag is false, and
every unlocked button has the attribute of `missionData[0]` for its field,
copied by the `PianoKey(0, nav)` of the redraw that ends the handler.  So when
those attributes of template 0 are 0 the navigator is the freshly reset one,
with joint locked at 0 when joint missions are unavailable.  When the `Days`
of template 0 is negative the assertion of `PianoKey` stops the handler. -/
theorem C15_reset (fuel : Nat) (g : Globals) (s : Session)
    (hlen : g.missionData.length = 62) :
    ∃ m0, missionAt g 0 = .ok m0 ∧
      (0 ≤ m0.Days →
        FutureStep fuel g s .reset = .ok
          { s with
            misType := 0
            nav :=
              { duration := ⟨m0.Days, false⟩, docking := ⟨m0.Doc, false⟩
                EVA := ⟨m0.EVA, false⟩, LM := ⟨m0.LM, false⟩
                joint := if s.JointFlag then ⟨m0.Jt, false⟩ else ⟨0, true⟩ } }) ∧
      (m0.Days = 0 → m0.Doc = 0 → m0.EVA = 0 → m0.LM = 0 → (s.JointFlag = true → m0.Jt = 0) →
        FutureStep fuel g s .reset = .ok
          { s with
            misType := 0
            nav := { freeNav with joint := if s.JointFlag then ⟨0, false⟩ else ⟨0, true⟩ } }) ∧
      (m0.Days < 0 → FutureStep fuel g s .reset = .error .assertFailed) := by
  obtain ⟨m0, hm⟩ := missionAt_ok g 0 hlen (le_refl 0) (by decide)
  have hstep : 0 ≤ m0.Days → FutureStep fuel g s .reset = .ok
      { s with
        misType := 0
        nav :=
          { duration := ⟨m0.Days, false⟩, docking := ⟨m0.Doc, false⟩
            EVA := ⟨m0.EVA, false⟩, LM := ⟨m0.LM, false⟩
            joint := if s.JointFlag then ⟨m0.Jt, false⟩ else ⟨0, true⟩ } } := by
    intro hd
    cases hj : s.JointFlag <;>
      simp [FutureStep, DrawMission, PianoKey_eq g 0 _ m0 hm (Or.inr hd), hm, Except.bind,
        NavReset, hj]
  refine ⟨m0, hm, hstep, fun h1 h2 h3 h4 h5 => ?_, fun hneg => ?_⟩
  · rw [hstep (by omega), h1, h2, h3, h4]
    cases hj : s.JointFlag
    · simp [freeNav]
    · simp [freeNav, h5 hj]
  · have hA : ∀ nav : MissionNavigator, nav.duration.lock = false →
        PianoKey g 0 nav = .error .assertFailed :=
      fun nav hl => PianoKey_assert g 0 nav m0 hm hl hneg
    cases hj : s.JointFlag
    · simp [FutureStep, DrawMission, NavReset, hj,
        hA ⟨⟨0, false⟩, ⟨0, false⟩, ⟨0, false⟩, ⟨0, false⟩, ⟨0, true⟩⟩ rfl, Except.bind]
    · simp [FutureStep, DrawMission, NavReset, hj,
        hA ⟨⟨0, false⟩, ⟨0, false⟩, ⟨0, false⟩, ⟨0, false⟩, ⟨0, false⟩⟩ rfl, Except.bind]

/-- C15 (amended) at a concrete input: player 0, joint missions unavailable,
cursor 5, every button locked, template 0 requiring docking. -/
theorem C15_reset_witness :
    (dockingGlobals [0]).missionData.length = 62 ∧
    FutureStep 57 (dockingGlobals [0]) ⟨0, false, 5, lockedNav⟩ .reset =
      .ok ⟨0, false, 0, { freeNav with docking := ⟨1, false⟩, joint := ⟨0, true⟩ }⟩ ∧
    ∃ m0, missionAt (dockingGlobals [0]) 0 = .ok m0 ∧
      (0 ≤ m0.Days →
        FutureStep 57 (dockingGlobals [0]) ⟨0, false, 5, lockedNav⟩ .reset = .ok
          { (⟨0, false, 5, lockedNav⟩ : Session) with
            misType := 0
            nav :=
              { duration := ⟨m0.Days, false⟩, docking := ⟨m0.Doc, false⟩
                EVA := ⟨m0.EVA, false⟩, LM := ⟨m0.LM, false⟩
                joint := if (⟨0, false, 5, lockedNav⟩ : Session).JointFlag then ⟨m0.Jt, false⟩
                  else ⟨0, true⟩ } }) ∧
      (m0.Days = 0 → m0.Doc = 0 → m0.EVA = 0 → m0.LM = 0 →
        ((⟨0, false, 5, lockedNav⟩ : Session).JointFlag = true → m0.Jt = 0) →
        FutureStep 57 (dockingGlobals [0]) ⟨0, false, 5, lockedNav⟩ .reset = .ok
          { (⟨0, false, 5, lockedNav⟩ : Session) with
            misType := 0
            nav := { freeNav with
              joint := if (⟨0, false, 5, lockedNav⟩ : Session).JointFlag then ⟨0, false⟩
                else ⟨0, true⟩ } }) ∧
      (m0.Days < 0 →
        FutureStep 57 (dockingGlobals [0]) ⟨0, false, 5, lockedNav⟩ .reset =
          .error .assertFailed) :=
  ⟨by simp [dockingGlobals], by rfl,
    C15_reset 57 (dockingGlobals [0]) ⟨0, false, 5, lockedNav⟩ (by simp [dockingGlobals])⟩

/-! ## Properties of the match test -/

/-- C16: unlocking is monotone.  When `NavMatch(nav, m)` is true it stays true
for the navigator that differs from `nav` only in that the lock flag of one
field `f` is false. -/
theorem C16_unlock_monotone (nav : MissionNavigator) (m : mStr) (f : Field)
    (h : NavMatch nav m = true) : NavMatch (nav.withLock f false) m = true := by
  cases f <;> simp only [NavMatch, MissionNavigator.withLock, Bool.and_eq_true] at h ⊢ <;>
    obtain ⟨⟨⟨⟨h1, h2⟩, h3⟩, h4⟩, h5⟩ := h <;>
    simp [h1, h2, h3, h4, h5]

/-- C16 at a concrete input: docking locked at 1 against the docking template,
then docking unlocked. -/
theorem C16_unlock_monotone_witness :
    NavMatch dockingNav dockingMission = true ∧
    NavMatch (dockingNav.withLock .docking false) dockingMission = true :=
  ⟨by decide, C16_unlock_monotone dockingNav dockingMission .docking (by decide)⟩

/-- C17: a navigator whose five lock flags are all false matches every
template, whatever its five values. -/
theorem C17_unlocked_matches (nav : MissionNavigator) (m : mStr)
    (h1 : nav.duration.lock = false) (h2 : nav.docking.lock = false)
    (h3 : nav.EVA.lock = false) (h4 : nav.LM.lock = false) (h5 : nav.joint.lock = false) :
    NavMatch nav m = true := by
  simp [NavMatch, h1, h2, h3, h4, h5]

/-- C17 at a concrete input: all five buttons unlocked at the values 4, 1, 1, 0
and 1, against the template with every attribute 0. -/
theorem C17_unlocked_matches_witness :
    NavMatch ⟨⟨4, false⟩, ⟨1, false⟩, ⟨1, false⟩, ⟨0, false⟩, ⟨1, false⟩⟩ zeroMission = true :=
  C17_unlocked_matches ⟨⟨4, false⟩, ⟨1, false⟩, ⟨1, false⟩, ⟨0, false⟩, ⟨1, false⟩⟩ zeroMission
    rfl rfl rfl rfl rfl

/-! ## The availability predicates -/

/-- C18: with season 0 for spring and 1 for fall, `MarsInRange` is true for
exactly the seven pairs (60,0), (62,0), (64,0), (66,0), (69,1), (71,1), (73,1);
`JupiterInRange` is true exactly for the years 60, 64, 68, 72, 73, 77 and
`SaturnInRange` exactly for the years 61, 66, 72, whatever the season.  So
`MarsInRange(60, 0)` is true, `MarsInRange(60, 1)` is false and
`JupiterInRange(73, s)` is true for every `s`. -/
theorem C18_availability_tables :
    (∀ year season : Nat, MarsInRange year season = true ↔
      (year, season) ∈ [(60, 0), (62, 0), (64, 0), (66, 0), (69, 1), (71, 1), (73, 1)]) ∧
    (∀ year season : Nat, JupiterInRange year season = true ↔
      year ∈ [60, 64, 68, 72, 73, 77]) ∧
    (∀ year season : Nat, SaturnInRange year season = true ↔ year ∈ [61, 66, 72]) ∧
    MarsInRange 60 0 = true ∧ MarsInRange 60 1 = false ∧
    (∀ season : Nat, JupiterInRange 73 season = true) := by
  refine ⟨fun year season => ?_, fun year season => ?_, fun year season => ?_, rfl, rfl,
    fun season => rfl⟩
  · simp [MarsInRange, or_assoc]
  · simp [JupiterInRange, or_assoc]
  · simp [SaturnInRange, or_assoc]

/-! ## The catalog load -/

/-- The read loop with at least `n` full records left: the next `n` records
are appended in file order and nothing is thrown. -/
theorem SetParametersLoop_full :
    ∀ (n : Nat) (records missionData : List mStr), n ≤ records.length →
      SetParametersLoop n records missionData = (missionData ++ records.take n, none) := by
  intro n
  induction n with
  | zero => intro records missionData _; simp [SetParametersLoop]
  | succ n ih =>
    intro records missionData h
    cases records with
    | nil => simp at h
    | cons entry rest =>
      simp only [List.length_cons, Nat.add_le_add_iff_right] at h
      simp [SetParametersLoop, ih rest (missionData ++ [entry]) h]

/-- The read loop with fewer than `n` full records left: the vector is cleared
and the read error is thrown. -/
theorem SetParametersLoop_short :
    ∀ (n : Nat) (records missionData : List mStr), records.length < n →
      SetParametersLoop n records missionData = ([], some .errorReadingEntry) := by
  intro n
  induction n with
  | zero => intro records missionData h; simp at h
  | succ n ih =>
    intro records missionData h
    cases records with
    | nil => simp [SetParametersLoop]
    | cons entry rest =>
      simp only [List.length_cons, Nat.add_lt_add_iff_right] at h
      simp [SetParametersLoop, ih rest (missionData ++ [entry]) h]

/-- One call of `SetParameters` keeps the vector at 0 or 62 entries. -/
theorem SetParameters_length (file : Option (List mStr)) (missionData : List mStr)
    (h : missionData.length = 0 ∨ missionData.length = 62) :
    (SetParameters file missionData).1.length = 0 ∨
      (SetParameters file missionData).1.length = 62 := by
  unfold SetParameters
  cases missionData with
  | cons entry rest => simpa using h
  | nil =>
    cases file with
    | none => simp
    | some records =>
      by_cases hr : 62 ≤ records.length
      · right
        simp [SetParametersLoop_full 62 records [] hr, List.length_take, hr]
      · left
        simp [SetParametersLoop_short 62 records [] (by omega)]

/-- C19: `SetParameters` on an empty vector, with `MISSION.DAT` unopenable or
a sequence of full records: when the file opens and has at least 62 records
the vector ends as the first 62 records in file order and nothing is thrown;
when it has fewer the read error is thrown and the vector is empty; when it
cannot be opened the open error is thrown and the vector is empty.  On a
non-empty vector the call returns without reading and leaves it unchanged.
After every sequence of calls from the empty vector it has 0 or 62 entries. -/
theorem C19_catalog_load (file : Option (List mStr)) (records missionData : List mStr)
    (files : List (Option (List mStr))) :
    (62 ≤ records.length →
      SetParameters (some records) [] = (records.take 62, none) ∧
      (records.take 62).length = 62) ∧
    (records.length < 62 → SetParameters (some records) [] = ([], some .errorReadingEntry)) ∧
    SetParameters none [] = ([], some .couldNotOpen) ∧
    (missionData ≠ [] → SetParameters file missionData = (missionData, none)) ∧
    ((SetParametersCalls files []).length = 0 ∨ (SetParametersCalls files []).length = 62) := by
  refine ⟨fun h => ⟨?_, ?_⟩, fun h => ?_, rfl, fun h => ?_, ?_⟩
  · simp [SetParameters, SetParametersLoop_full 62 records [] h]
  · simp [List.length_take, h]
  · simp [SetParameters, SetParametersLoop_short 62 records [] h]
  · cases missionData with
    | nil => exact absurd rfl h
    | cons entry rest => simp [SetParameters]
  · have key : ∀ (fs : List (Option (List mStr))) (md : List mStr),
        (md.length = 0 ∨ md.length = 62) →
        ((SetParametersCalls fs md).length = 0 ∨ (SetParametersCalls fs md).length = 62) := by
      intro fs
      induction fs with
      | nil => intro md h; exact h
      | cons f rest ih =>
        intro md h
        exact ih _ (SetParameters_length f md h)
    exact key files [] (Or.inl rfl)

/-- C19 at a concrete input: a file of 70 records, a file of 61 records, and a
second call on the loaded vector. -/
theorem C19_catalog_load_witness :
    SetParameters (some (missionFile 70)) [] = (missionFile 62, none) ∧
    SetParameters (some (missionFile 61)) [] = ([], some .errorReadingEntry) ∧
    SetParameters none (missionFile 62) = (missionFile 62, none) :=
  ⟨((C19_catalog_load none (missionFile 70) [] []).1 (by decide)).1,
    (C19_catalog_load none (missionFile 61) [] []).2.1 (by decide),
    (C19_catalog_load none [] (missionFile 62) []).2.2.2.1 (by decide)⟩

/-! ## Locking the displayed mission -/

/-- C22: when `NavMatch(nav, missionData[X])` is true and `nav1` is the
navigator after `PianoKey(X, nav)`, every navigator obtained from `nav1` by
setting the lock flags of any set of fields to true, values unchanged, still
matches `missionData[X]`, and the duration value of `nav1` is at least the
`Days` of `missionData[X]`.  `PianoKey(X, nav)` returns when the duration
button is locked or that `Days` is not negative, as its assertion requires,
and in no other case. -/
theorem C22_lock_displayed (g : Globals) (X : Int) (nav : MissionNavigator) (m : mStr)
    (hm : missionAt g X = .ok m) (h : NavMatch nav m = true) :
    ((∃ nav1, PianoKey g X nav = .ok nav1) ↔ (nav.duration.lock = true ∨ 0 ≤ m.Days)) ∧
    ∀ nav1, PianoKey g X nav = .ok nav1 →
      (∀ S : Field → Bool, NavMatch (nav1.lockAlso S) m = true) ∧
      nav1.duration.value ≥ m.Days := by
  refine ⟨⟨fun ⟨nav1, hp⟩ => PianoKey_returned g X nav nav1 m hm hp,
    fun hd => ⟨_, PianoKey_eq g X nav m hm hd⟩⟩, fun nav1 hp => ?_⟩
  rw [PianoKey_eq g X nav m hm (PianoKey_returned g X nav nav1 m hm hp)] at hp
  injection hp with hp
  subst hp
  refine ⟨fun S => ?_, ?_⟩
  · rcases nav with ⟨⟨v1, l1⟩, ⟨v2, l2⟩, ⟨v3, l3⟩, ⟨v4, l4⟩, ⟨v5, l5⟩⟩
    simp only [NavMatch, Bool.and_eq_true] at h
    obtain ⟨⟨⟨⟨h2, h3⟩, h4⟩, h5⟩, h1⟩ := h
    simp only [NavMatch, MissionNavigator.lockAlso, Bool.and_eq_true]
    refine ⟨⟨⟨⟨?_, ?_⟩, ?_⟩, ?_⟩, ?_⟩
    · cases l2 <;> simp_all
    · cases l3 <;> simp_all
    · cases l4 <;> simp_all
    · cases l5 <;> simp_all
    · cases l1 <;> simp_all
  · rcases nav with ⟨⟨v1, l1⟩, ⟨v2, l2⟩, ⟨v3, l3⟩, ⟨v4, l4⟩, ⟨v5, l5⟩⟩
    simp only [NavMatch, Bool.and_eq_true] at h
    obtain ⟨-, h1⟩ := h
    cases l1
    · simp
    · simp at h1 ⊢
      rcases h1 with h1 | h1
      · omega
      · exact h1.2

/-- C22 at a concrete input: duration locked at 5 against a template of
duration class 2 that is a minimum, at index 7 of a catalog of such templates;
`PianoKey` returns there. -/
theorem C22_lock_displayed_witness :
    missionAt jointGlobals 7 = .ok jointMission ∧ NavMatch duration5Nav jointMission = true ∧
    (∃ nav1, PianoKey jointGlobals 7 duration5Nav = .ok nav1) ∧
    ((∃ nav1, PianoKey jointGlobals 7 duration5Nav = .ok nav1) ↔
      (duration5Nav.duration.lock = true ∨ 0 ≤ jointMission.Days)) ∧
    ∀ nav1, PianoKey jointGlobals 7 duration5Nav = .ok nav1 →
      (∀ S : Field → Bool, NavMatch (nav1.lockAlso S) jointMission = true) ∧
      nav1.duration.value ≥ jointMission.Days :=
  ⟨rfl, by decide, ⟨_, rfl⟩,
    C22_lock_displayed jointGlobals 7 duration5Nav jointMission rfl (by decide)⟩

/-! ## The first candidate of the forward search -/

/-- Whenever the forward loop returns, the first candidate it examined is the
one it was entered with, and each further candidate is the in-loop increment of
the one before: one more, or 0 once that exceeds `56 + plr`. -/
theorem upLoop_trace (g : Globals) (plr : Int) (nav : MissionNavigator) (orig : Int) :
    ∀ (fuel : Nat) (num r : Int) (tr : List Int),
      UpSearchLoop g plr nav orig fuel num = .ok (r, tr) →
      tr.head? = some num ∧
        List.Chain' (fun a b => b = if a + 1 > 56 + plr then 0 else a + 1) tr := by
  intro fuel
  induction fuel with
  | zero => intro num r tr h; simp [UpSearchLoop] at h
  | succ fuel ih =>
    intro num r tr h
    simp only [UpSearchLoop] at h
    split at h
    · simp at h
    · split at h
      · injection h with h
        injection h with _ htr
        subst htr
        simp
      · split at h
        · split at h
          · simp at h
          · rename_i r1 tr1 hrec
            injection h with h
            injection h with _ htr
            subst htr
            obtain ⟨hhead, hchain⟩ := ih _ r1 tr1 hrec
            refine ⟨rfl, ?_⟩
            cases tr1 with
            | nil => simp
            | cons b rest =>
              simp only [List.head?_cons, Option.some.injEq] at hhead
              exact List.Chain'.cons hhead hchain
        · injection h with h
          injection h with _ htr
          subst htr
          simp

/-- Whenever the forward loop entered at `num ≤ orig ≤ 56 + plr` returns, every
candidate it examined lies in `[num, orig]`. -/
theorem upLoop_below (g : Globals) (plr : Int) (nav : MissionNavigator) (orig : Int)
    (ho : orig ≤ 56 + plr) :
    ∀ (fuel : Nat) (num r : Int) (tr : List Int), num ≤ orig →
      UpSearchLoop g plr nav orig fuel num = .ok (r, tr) → ∀ i ∈ tr, num ≤ i ∧ i ≤ orig := by
  intro fuel
  induction fuel with
  | zero => intro num r tr _ h; simp [UpSearchLoop] at h
  | succ fuel ih =>
    intro num r tr hle h
    simp only [UpSearchLoop] at h
    split at h
    · simp at h
    · split at h
      · injection h with h
        injection h with _ htr
        subst htr
        intro i hi
        simp only [List.mem_singleton] at hi
        omega
      · rename_i hne
        split at h
        · split at h
          · simp at h
          · rename_i r1 tr1 hrec
            injection h with h
            injection h with _ htr
            subst htr
            have hnext : (if num + 1 > 56 + plr then 0 else num + 1) = num + 1 := by
              split <;> omega
            rw [hnext] at hrec
            have := ih (num + 1) r1 tr1 (by omega) hrec
            intro i hi
            rcases List.mem_cons.mp hi with rfl | hi
            · omega
            · have := this i hi; omega
        · injection h with h
          injection h with _ htr
          subst htr
          intro i hi
          simp only [List.mem_singleton] at hi
          omega

/-- C23: for every navigator, flag setting and 62-entry catalog,
`UpSearchRout(55 + plr, plr, nav)` returns a value other than `56 + plr`: its
first candidate is 0 and it never examines `56 + plr`, whether or not that
index is accepted.  From the start `56 + plr` the first candidate is 0 as well;
from every start `s ≤ 54 + plr` it is `s + 1`.  In every run each further
candidate is one more than the candidate before while that is below
`56 + plr`, and 0 after `56 + plr`. -/
theorem C23_up_skips_last (g : Globals) (nav : MissionNavigator) (plr : Int) (fuel : Nat)
    (hplr : plr = 0 ∨ plr = 1) (hlen : g.missionData.length = 62) (hf : 57 + plr ≤ fuel) :
    (∃ r tr, UpSearchRout fuel g (55 + plr) plr nav = .ok (r, tr) ∧ r ≠ 56 + plr ∧
      tr.head? = some 0 ∧ 56 + plr ∉ tr) ∧
    (∃ r tr, UpSearchRout fuel g (56 + plr) plr nav = .ok (r, tr) ∧ tr.head? = some 0) ∧
    (∀ s : Int, 0 ≤ s → s ≤ 54 + plr →
      ∃ r tr, UpSearchRout fuel g s plr nav = .ok (r, tr) ∧ tr.head? = some (s + 1)) ∧
    (∀ (s r : Int) (tr : List Int), UpSearchRout fuel g s plr nav = .ok (r, tr) →
      List.Chain' (fun a b => (a < 56 + plr → b = a + 1) ∧ (a = 56 + plr → b = 0)) tr) := by
  have hM : 57 + plr = 57 ∨ 57 + plr = 58 := by omega
  refine ⟨?_, ?_, fun s hs0 hs1 => ?_, fun s r tr h => ?_⟩
  · obtain ⟨r, tr, hrun, -, -, hres⟩ :=
      up_scan_penultimate g nav plr (57 + plr) fuel hM (by omega) hlen hf
    have hstart : 57 + plr - 2 = 55 + plr := by omega
    rw [hstart] at hrun
    have hloop : UpSearchLoop g plr nav (55 + plr) fuel 0 = .ok (r, tr) := by
      have hfirst : (if 55 + plr + 1 ≥ 56 + plr then 0 else 55 + plr + 1) = (0 : Int) := by
        split <;> omega
      simpa only [UpSearchRout, hfirst] using hrun
    refine ⟨r, tr, hrun, ?_, (upLoop_trace g plr nav _ fuel 0 r tr hloop).1, fun hmem => ?_⟩
    · rcases hres with ⟨hr, -⟩ | ⟨k, hk, hrk, -, -⟩ <;> omega
    · have := upLoop_below g plr nav (55 + plr) (by omega) fuel 0 r tr (by omega) hloop _ hmem
      omega
  · obtain ⟨⟨r, tr, hrun, -⟩, -⟩ :=
      search_total g nav plr (56 + plr) fuel hplr hlen (by omega) (le_refl _) hf
    have hfirst : (if 56 + plr + 1 ≥ 56 + plr then 0 else 56 + plr + 1) = (0 : Int) := by
      split <;> omega
    have hloop : UpSearchLoop g plr nav (56 + plr) fuel 0 = .ok (r, tr) := by
      simpa only [UpSearchRout, hfirst] using hrun
    exact ⟨r, tr, hrun, (upLoop_trace g plr nav _ fuel 0 r tr hloop).1⟩
  · obtain ⟨⟨r, tr, hrun, -⟩, -⟩ :=
      search_total g nav plr s fuel hplr hlen hs0 (by omega) hf
    have hfirst : (if s + 1 ≥ 56 + plr then 0 else s + 1) = s + 1 := by
      split <;> omega
    have hloop : UpSearchLoop g plr nav s fuel (s + 1) = .ok (r, tr) := by
      simpa only [UpSearchRout, hfirst] using hrun
    exact ⟨r, tr, hrun, (upLoop_trace g plr nav _ fuel (s + 1) r tr hloop).1⟩
  · have hch := (upLoop_trace g plr nav s fuel _ r tr h).2
    refine List.Chain'.imp (fun a b hab => ?_) hch
    subst hab
    constructor
    · intro ha; split <;> omega
    · intro ha; split <;> omega

/-- C23 at a concrete input: player 0, docking locked at 1, template 56 the
only one requiring docking, so that index 56 is accepted. -/
theorem C23_up_skips_last_witness :
    (dockingGlobals [56]).missionData.length = 62 ∧
    accepted (dockingGlobals [56]) dockingNav (56 + 0) = true ∧
    (∃ r tr, UpSearchRout 57 (dockingGlobals [56]) (55 + 0) 0 dockingNav = .ok (r, tr) ∧
      r ≠ 56 + 0 ∧ tr.head? = some 0 ∧ 56 + 0 ∉ tr) ∧
    (∃ r tr, UpSearchRout 57 (dockingGlobals [56]) (56 + 0) 0 dockingNav = .ok (r, tr) ∧
      tr.head? = some 0) ∧
    (∀ s : Int, 0 ≤ s → s ≤ 54 + 0 →
      ∃ r tr, UpSearchRout 57 (dockingGlobals [56]) s 0 dockingNav = .ok (r, tr) ∧
        tr.head? = some (s + 1)) ∧
    (∀ (s r : Int) (tr : List Int),
      UpSearchRout 57 (dockingGlobals [56]) s 0 dockingNav = .ok (r, tr) →
      List.Chain' (fun a b => (a < 56 + 0 → b = a + 1) ∧ (a = 56 + 0 → b = 0)) tr) :=
  ⟨by simp [dockingGlobals], by decide,
    C23_up_skips_last (dockingGlobals [56]) dockingNav 0 57 (Or.inl rfl)
      (by simp [dockingGlobals]) (by decide)⟩

/-! ## The cursor when joint missions are unavailable -/

/-- An index accepted by a navigator whose joint button is locked at 0 holds a
template with `Jt` equal to 0. -/
theorem accepted_joint (g : Globals) (nav : MissionNavigator) (r : Int)
    (h : accepted g nav r = true) (hn : nav.joint = ⟨0, true⟩) :
    ∃ m, missionAt g r = .ok m ∧ m.Jt = 0 := by
  unfold accepted at h
  cases hm : missionAt g r with
  | error e => rw [hm] at h; simp at h
  | ok m =>
    rw [hm] at h
    refine ⟨m, rfl, ?_⟩
    simp only [NavMatch, hn, Bool.and_eq_true] at h
    obtain ⟨-, ⟨⟨-, hj⟩, -⟩⟩ := h
    simp at hj
    exact hj.symm

/-- A forward search statement keeps the state of a session without joint
missions, when template 0 has `Jt` equal to 0. -/
theorem scrollUpPass_noJoint (fuel : Nat) (g : Globals) (plr : Int) (s : Session)
    (hplr : plr = 0 ∨ plr = 1) (hlen : g.missionData.length = 62) (hf : 57 + plr ≤ fuel)
    (hz : ∃ m0, missionAt g 0 = .ok m0 ∧ m0.Jt = 0) (hs : noJointSession g plr s) :
    ∃ s1, scrollUpPass fuel g s = .ok s1 ∧ noJointSession g plr s1 := by
  obtain ⟨hp, h0, h1, hj, hn, -⟩ := hs
  subst hp
  obtain ⟨r, tr, -, hpass, hr0, hr1, hacc⟩ := scrollUpPass_ok fuel g s hplr hlen h0 h1 hf
  refine ⟨_, hpass, rfl, hr0, hr1, hj, hn, ?_⟩
  rcases hacc with hr | ⟨hacc, -⟩
  · subst hr; exact hz
  · exact accepted_joint g s.nav r hacc hn

/-- A backward search statement keeps the state of a session without joint
missions, when template 0 has `Jt` equal to 0. -/
theorem scrollDownPass_noJoint (fuel : Nat) (g : Globals) (plr : Int) (s : Session)
    (hplr : plr = 0 ∨ plr = 1) (hlen : g.missionData.length = 62) (hf : 57 + plr ≤ fuel)
    (hz : ∃ m0, missionAt g 0 = .ok m0 ∧ m0.Jt = 0) (hs : noJointSession g plr s) :
    ∃ s1, scrollDownPass fuel g s = .ok s1 ∧ noJointSession g plr s1 := by
  obtain ⟨hp, h0, h1, hj, hn, -⟩ := hs
  subst hp
  obtain ⟨r, tr, -, hpass, hr0, hr1, hacc⟩ := scrollDownPass_ok fuel g s hplr hlen h0 h1 hf
  refine ⟨_, hpass, rfl, hr0, hr1, hj, hn, ?_⟩
  rcases hacc with hr | ⟨hacc, -⟩
  · subst hr; exact hz
  · exact accepted_joint g s.nav r hacc hn

/-- A redraw that returns keeps the state of a session without joint
missions. -/
theorem redraw_noJoint (g : Globals) (plr : Int) (s s1 : Session)
    (h : redraw g s = .ok s1) (hs : noJointSession g plr s) : noJointSession g plr s1 := by
  obtain ⟨hp, h0, h1, hj, hn, hm⟩ := hs
  obtain ⟨hp1, hj1, hm1⟩ := redraw_cursor g s s1 h
  obtain ⟨-, hn1⟩ := redraw_joint g s s1 h (by rw [hn])
  exact ⟨by rw [hp1, hp], by rw [hm1]; exact h0, by rw [hm1]; exact h1,
    by rw [hj1, hj], by rw [hn1, hn], by rw [hm1]; exact hm⟩

/-- The loop of the held forward scroll, whenever it returns, keeps the state
of a session without joint missions. -/
theorem scrollUpHeld_noJoint (fuel : Nat) (g : Globals) (plr : Int)
    (hplr : plr = 0 ∨ plr = 1) (hlen : g.missionData.length = 62) (hf : 57 + plr ≤ fuel)
    (hz : ∃ m0, missionAt g 0 = .ok m0 ∧ m0.Jt = 0) :
    ∀ (n : Nat) (s s1 : Session), scrollUpHeld fuel g n s = .ok s1 →
      noJointSession g plr s → noJointSession g plr s1 := by
  intro n
  induction n with
  | zero =>
    intro s s1 h hs
    simp only [scrollUpHeld] at h
    injection h with h
    subst h
    exact hs
  | succ n ih =>
    intro s s1 h hs
    obtain ⟨s2, h2, hs2⟩ := scrollUpPass_noJoint fuel g plr s hplr hlen hf hz hs
    simp only [scrollUpHeld, h2] at h
    split at h
    · simp at h
    · rename_i s3 h3
      exact ih s3 s1 h (redraw_noJoint g plr s2 s3 h3 hs2)

/-- The loop of the held backward scroll, whenever it returns, keeps the state
of a session without joint missions. -/
theorem scrollDownHeld_noJoint (fuel : Nat) (g : Globals) (plr : Int)
    (hplr : plr = 0 ∨ plr = 1) (hlen : g.missionData.length = 62) (hf : 57 + plr ≤ fuel)
    (hz : ∃ m0, missionAt g 0 = .ok m0 ∧ m0.Jt = 0) :
    ∀ (n : Nat) (s s1 : Session), scrollDownHeld fuel g n s = .ok s1 →
      noJointSession g plr s → noJointSession g plr s1 := by
  intro n
  induction n with
  | zero =>
    intro s s1 h hs
    simp only [scrollDownHeld] at h
    injection h with h
    subst h
    exact hs
  | succ n ih =>
    intro s s1 h hs
    obtain ⟨s2, h2, hs2⟩ := scrollDownPass_noJoint fuel g plr s hplr hlen hf hz hs
    simp only [scrollDownHeld, h2] at h
    split at h
    · simp at h
    · rename_i s3 h3
      exact ih s3 s1 h (redraw_noJoint g plr s2 s3 h3 hs2)

/-- A toggle or lock-toggle pass that returns keeps the player and the cursor. -/
theorem FutureStep_button_cursor (fuel : Nat) (g : Globals) (s s1 : Session) (f : Field) :
    (FutureStep fuel g s (.toggle f) = .ok s1 → s1.plr = s.plr ∧ s1.misType = s.misType) ∧
    (FutureStep fuel g s (.lockToggle f) = .ok s1 → s1.plr = s.plr ∧ s1.misType = s.misType) := by
  constructor
  · intro h
    cases f with
    | duration =>
      simp only [FutureStep] at h
      split at h
      · split at h
        · injection h with h; subst h; exact ⟨rfl, rfl⟩
        · split at h
          · simp at h
          · injection h with h; subst h; exact ⟨rfl, rfl⟩
      · injection h with h; subst h; exact ⟨rfl, rfl⟩
    | docking =>
      simp only [FutureStep] at h
      split at h <;> injection h with h <;> subst h <;> exact ⟨rfl, rfl⟩
    | EVA =>
      simp only [FutureStep] at h
      split at h <;> injection h with h <;> subst h <;> exact ⟨rfl, rfl⟩
    | LM =>
      simp only [FutureStep] at h
      split at h <;> injection h with h <;> subst h <;> exact ⟨rfl, rfl⟩
    | joint =>
      simp only [FutureStep] at h
      split at h <;> injection h with h <;> subst h <;> exact ⟨rfl, rfl⟩
  · intro h
    cases f <;> simp only [FutureStep] at h <;> (try split at h) <;>
      injection h with h <;> subst h <;> exact ⟨rfl, rfl⟩

/-- Every pass of the input loop that returns keeps the state of a session
without joint missions, when template 0 has `Jt` equal to 0. -/
theorem FutureStep_noJoint (fuel : Nat) (g : Globals) (plr : Int)
    (hplr : plr = 0 ∨ plr = 1) (hlen : g.missionData.length = 62) (hf : 57 + plr ≤ fuel)
    (hz : ∃ m0, missionAt g 0 = .ok m0 ∧ m0.Jt = 0) (s s1 : Session) (e : Event)
    (hstep : FutureStep fuel g s e = .ok s1) (hs : noJointSession g plr s) :
    noJointSession g plr s1 := by
  have hs' := hs
  obtain ⟨hp, h0, h1, hj, hn, hm⟩ := hs'
  obtain ⟨hj1, hn1⟩ := FutureStep_joint fuel g s s1 e hstep hj hn
  cases e with
  | toggle f =>
    obtain ⟨hp1, hc⟩ := (FutureStep_button_cursor fuel g s s1 f).1 hstep
    exact ⟨by rw [hp1, hp], by rw [hc]; exact h0, by rw [hc]; exact h1, hj1, hn1,
      by rw [hc]; exact hm⟩
  | lockToggle f =>
    obtain ⟨hp1, hc⟩ := (FutureStep_button_cursor fuel g s s1 f).2 hstep
    exact ⟨by rw [hp1, hp], by rw [hc]; exact h0, by rw [hc]; exact h1, hj1, hn1,
      by rw [hc]; exact hm⟩
  | reset =>
    have hc : s1.plr = s.plr ∧ s1.misType = 0 := by
      simp only [FutureStep] at hstep
      split at hstep
      · injection hstep with hstep; subst hstep; exact ⟨rfl, rfl⟩
      · simp at hstep
    exact ⟨by rw [hc.1, hp], by rw [hc.2], by rw [hc.2]; omega, hj1, hn1, by rw [hc.2]; exact hz⟩
  | scrollUp released held =>
    have hfirst : ∃ s2, (if released then scrollUpPass fuel g s else .ok s) = .ok s2 ∧
        noJointSession g plr s2 := by
      cases released
      · exact ⟨s, rfl, hs⟩
      · exact scrollUpPass_noJoint fuel g plr s hplr hlen hf hz hs
    obtain ⟨s2, h2, hs2⟩ := hfirst
    simp only [FutureStep, h2] at hstep
    split at hstep
    · simp at hstep
    · rename_i s3 h3
      have hs3 := scrollUpHeld_noJoint fuel g plr hplr hlen hf hz held s2 s3 h3 hs2
      exact redraw_noJoint g plr s3 s1 hstep hs3
  | scrollDown released held =>
    have hfirst : ∃ s2, (if released then scrollDownPass fuel g s else .ok s) = .ok s2 ∧
        noJointSession g plr s2 := by
      cases released
      · exact ⟨s, rfl, hs⟩
      · exact scrollDownPass_noJoint fuel g plr s hplr hlen hf hz hs
    obtain ⟨s2, h2, hs2⟩ := hfirst
    simp only [FutureStep, h2] at hstep
    split at hstep
    · simp at hstep
    · rename_i s3 h3
      have hs3 := scrollDownHeld_noJoint fuel g plr hplr hlen hf hz held s2 s3 h3 hs2
      exact redraw_noJoint g plr s3 s1 hstep hs3

/-- Every sequence of passes of the input loop that returns keeps the state of
a session without joint missions, when template 0 has `Jt` equal to 0. -/
theorem FutureRun_noJoint (fuel : Nat) (g : Globals) (plr : Int)
    (hplr : plr = 0 ∨ plr = 1) (hlen : g.missionData.length = 62) (hf : 57 + plr ≤ fuel)
    (hz : ∃ m0, missionAt g 0 = .ok m0 ∧ m0.Jt = 0) :
    ∀ (es : List Event) (s s1 : Session), FutureRun fuel g s es = .ok s1 →
      noJointSession g plr s → noJointSession g plr s1 := by
  intro es
  induction es with
  | nil =>
    intro s s1 h hs
    simp only [FutureRun] at h
    injection h with h
    subst h
    exact hs
  | cons e es ih =>
    intro s s1 h hs
    simp only [FutureRun] at h
    split at h
    · simp at h
    · rename_i s2 hstep
      exact ih s2 s1 h (FutureStep_noJoint fuel g plr hplr hlen hf hz s s2 e hstep hs)

/-- C21: in a session in which `JointMissionOK(plr, pad)` is false, with a
62-entry catalog whose template 0 has `Jt` equal to 0, whenever the start of
the session and a sequence of events have run (the empty sequence for the
state after the start) the cursor `misType` points at a template whose `Jt` is
0, and from every start in `[0, 56 + plr]` each of the two searches with the
navigator of the session returns 0 or the index of a template whose `Jt` is 0.
When the catalog follows the data model (`Days` in `0..6`) the start and every
sequence of events do run to their end. -/
theorem C21_no_joint_mission (fuel : Nat) (g : Globals) (plr : Int)
    (hplr : plr = 0 ∨ plr = 1) (hlen : g.missionData.length = 62) (hf : 57 + plr ≤ fuel)
    (hz : ∃ m0, missionAt g 0 = .ok m0 ∧ m0.Jt = 0) :
    (∀ (s0 s1 : Session) (es : List Event), FutureInit g plr false = .ok s0 →
      FutureRun fuel g s0 es = .ok s1 →
      (∃ m, missionAt g s1.misType = .ok m ∧ m.Jt = 0) ∧
      ∀ start : Int, 0 ≤ start → start ≤ 56 + plr →
        (∃ r tr, UpSearchRout fuel g start plr s1.nav = .ok (r, tr) ∧
          (r = 0 ∨ ∃ mr, missionAt g r = .ok mr ∧ mr.Jt = 0)) ∧
        (∃ r tr, DownSearchRout fuel g start plr s1.nav = .ok (r, tr) ∧
          (r = 0 ∨ ∃ mr, missionAt g r = .ok mr ∧ mr.Jt = 0))) ∧
    (durationClasses g = true →
      ∃ s0, FutureInit g plr false = .ok s0 ∧
        ∀ es : List Event, ∃ s1, FutureRun fuel g s0 es = .ok s1) := by
  refine ⟨fun s0 s1 es hinit hrun => ?_, fun hd => ?_⟩
  · obtain ⟨hj0, hn0, hp0, hc0⟩ := FutureInit_joint g plr s0 hinit
    have hs0 : noJointSession g plr s0 :=
      ⟨hp0, by rw [hc0], by rw [hc0]; omega, hj0, hn0, by rw [hc0]; exact hz⟩
    obtain ⟨-, -, -, -, hn1, hm1⟩ := FutureRun_noJoint fuel g plr hplr hlen hf hz es s0 s1 hrun hs0
    refine ⟨hm1, fun start hs0 hs1 => ?_⟩
    obtain ⟨⟨r, tr, hup, -, -, -, -, hr⟩, ⟨r1, tr1, hdown, -, -, -, -, hr1⟩⟩ :=
      search_total g s1.nav plr start fuel hplr hlen hs0 hs1 hf
    refine ⟨⟨r, tr, hup, ?_⟩, ⟨r1, tr1, hdown, ?_⟩⟩
    · rcases hr with hr | ⟨hacc, -⟩
      · exact Or.inl hr
      · exact Or.inr (accepted_joint g s1.nav r hacc hn1)
    · rcases hr1 with hr1 | ⟨hacc, -⟩
      · exact Or.inl hr1
      · exact Or.inr (accepted_joint g s1.nav r1 hacc hn1)
  · obtain ⟨m0, hm⟩ := missionAt_ok g 0 hlen (le_refl 0) (by decide)
    have hdm := durationClasses_at g 0 m0 hd hm
    refine ⟨_, FutureInit_eq g plr false m0 hm hdm.1, fun es => ?_⟩
    obtain ⟨s1, hrun, -⟩ := FutureRun_ok fuel g plr hplr hlen hd hf es
      { plr := plr, JointFlag := false, misType := 0
        nav :=
          { duration := ⟨m0.Days, false⟩, docking := ⟨m0.Doc, false⟩, EVA := ⟨m0.EVA, false⟩
            LM := ⟨m0.LM, false⟩
            joint := if false then ⟨m0.Jt, false⟩ else ⟨0, true⟩ } }
      rfl (le_refl 0) (by show (0 : Int) ≤ 56 + plr; omega) hdm.1 hdm.2
    exact ⟨s1, hrun⟩

/-- C21 at a concrete input: player 0 and a catalog in which exactly the
templates 4 and 20 are joint missions; the session starts and every sequence
of events runs to its end. -/
theorem C21_no_joint_mission_witness :
    (jointAtGlobals [4, 20]).missionData.length = 62 ∧
    (∃ m0, missionAt (jointAtGlobals [4, 20]) 0 = .ok m0 ∧ m0.Jt = 0) ∧
    durationClasses (jointAtGlobals [4, 20]) = true ∧
    (∃ s0, FutureInit (jointAtGlobals [4, 20]) 0 false = .ok s0 ∧
      ∀ es : List Event, ∃ s1, FutureRun 57 (jointAtGlobals [4, 20]) s0 es = .ok s1) ∧
    ∀ (s0 s1 : Session) (es : List Event), FutureInit (jointAtGlobals [4, 20]) 0 false = .ok s0 →
      FutureRun 57 (jointAtGlobals [4, 20]) s0 es = .ok s1 →
      (∃ m, missionAt (jointAtGlobals [4, 20]) s1.misType = .ok m ∧ m.Jt = 0) ∧
      ∀ start : Int, 0 ≤ start → start ≤ 56 + 0 →
        (∃ r tr, UpSearchRout 57 (jointAtGlobals [4, 20]) start 0 s1.nav = .ok (r, tr) ∧
          (r = 0 ∨ ∃ mr, missionAt (jointAtGlobals [4, 20]) r = .ok mr ∧ mr.Jt = 0)) ∧
        (∃ r tr, DownSearchRout 57 (jointAtGlobals [4, 20]) start 0 s1.nav = .ok (r, tr) ∧
          (r = 0 ∨ ∃ mr, missionAt (jointAtGlobals [4, 20]) r = .ok mr ∧ mr.Jt = 0)) :=
  ⟨by simp [jointAtGlobals], ⟨zeroMission, rfl, rfl⟩, by decide,
    (C21_no_joint_mission 57 (jointAtGlobals [4, 20]) 0 (Or.inl rfl)
      (by simp [jointAtGlobals]) (by decide) ⟨zeroMission, rfl, rfl⟩).2 (by decide),
    (C21_no_joint_mission 57 (jointAtGlobals [4, 20]) 0 (Or.inl rfl)
      (by simp [jointAtGlobals]) (by decide) ⟨zeroMission, rfl, rfl⟩).1⟩

end RIS
